import Mathlib

/-!
Verification development for the Kiro/CodeWhisperer provider adapter
(`src/claude/claude-kiro.js`).  The JavaScript source is shallowly embedded:
strings are `List Char` under the hood (wrapped in `String` at the API
boundary), JS regex passes are implemented as explicit recursive scanners with
the same left-to-right, non-rescanning semantics, and JSON values are an
explicit inductive type.  Random UUIDs are abstracted as fixed placeholder
strings; they never influence the properties proved here.
-/

/- ===================== Basic character/string utilities ===================== -/

/-- JS `String.prototype.trim` whitespace class (the subset that can actually
occur in this adapter's data: ASCII whitespace plus NBSP and BOM). -/
def isJsWs (c : Char) : Bool :=
  c == ' ' || c == '\t' || c == '\n' || c == '\r' ||
  c == '\x0b' || c == '\x0c' || c == ' ' || c == '﻿'

def lowerL (l : List Char) : List Char := l.map Char.toLower

/-- `p` is a prefix of `s` (boolean). -/
def startsWithL : List Char → List Char → Bool
  | [], _ => true
  | _ :: _, [] => false
  | p :: ps, c :: cs => p == c && startsWithL ps cs

/-- First index at which `pat` occurs in the list, counting from `i`. -/
def findSubAux (pat : List Char) : List Char → Nat → Option Nat
  | [], i => if startsWithL pat [] then some i else none
  | c :: cs, i => if startsWithL pat (c :: cs) then some i else findSubAux pat cs (i + 1)

/-- First index at which `pat` occurs in `s` (case-sensitive). -/
def findSubIdx (pat s : List Char) : Option Nat := findSubAux pat s 0

/-- First index at which `pat` occurs in `s`, ASCII-case-insensitively. -/
def findSubIdxCI (pat s : List Char) : Option Nat := findSubIdx (lowerL pat) (lowerL s)

/-- Boolean containment of a substring, ASCII-case-insensitive. -/
def containsCI (pat s : String) : Bool := (findSubIdxCI pat.data s.data).isSome

/-- Drop leading JS-whitespace characters. -/
def dropLeadingWs : List Char → List Char
  | [] => []
  | c :: cs => if isJsWs c then dropLeadingWs cs else c :: cs

/-- Drop trailing JS-whitespace characters. -/
def trimRightL (l : List Char) : List Char := (dropLeadingWs l.reverse).reverse

/-- JS `trim`: drop whitespace from both ends. -/
def jsTrim (l : List Char) : List Char := trimRightL (dropLeadingWs l)

/- ===================== cleanSystemTags (claude-kiro.js:519-526) ===================== -/

def sysOpenTag : List Char := "<system-reminder>".data
def sysCloseTag : List Char := "</system-reminder>".data
def interruptMarker : List Char := "[Request interrupted by user]".data

/-- One global pass of
`text.replace(/<system-reminder>[\s\S]*?<\/system-reminder>/gi, '')`:
find the leftmost (case-insensitive) opening tag, pair it lazily with the
first closing tag after it, delete the span, and continue scanning after the
deleted span (JS `replace` never rescans the junction). -/
def removeTagsCore : Nat → List Char → List Char
  | 0, s => s
  | fuel + 1, s =>
    match findSubIdxCI sysOpenTag s with
    | none => s
    | some i =>
      let afterOpen := i + sysOpenTag.length
      match findSubIdxCI sysCloseTag (s.drop afterOpen) with
      | none => s
      | some j =>
        s.take i ++ removeTagsCore fuel (s.drop (afterOpen + j + sysCloseTag.length))

/-- One global pass of `text.replace(/\[Request interrupted by user\]/gi, '')`. -/
def removeMarkerCore : Nat → List Char → List Char
  | 0, s => s
  | fuel + 1, s =>
    match findSubIdxCI interruptMarker s with
    | none => s
    | some i =>
      s.take i ++ removeMarkerCore fuel (s.drop (i + interruptMarker.length))

/-- `cleanSystemTags` from `buildCodewhispererRequest` (claude-kiro.js:519-526):
strip `<system-reminder>…</system-reminder>` spans (case-insensitive), strip
`[Request interrupted by user]`, then `trim()`. -/
def cleanSystemTags (s : String) : String :=
  let a := removeTagsCore s.data.length s.data
  let b := removeMarkerCore a.length a
  ⟨jsTrim b⟩

/- ===================== trim idempotence toolkit ===================== -/

theorem dropLeadingWs_idem (l : List Char) :
    dropLeadingWs (dropLeadingWs l) = dropLeadingWs l := by
  induction l with
  | nil => rfl
  | cons c cs ih =>
    by_cases h : isJsWs c = true
    · simp [dropLeadingWs, h, ih]
    · simp [dropLeadingWs, h]

theorem dropLeadingWs_eq_drop (l : List Char) :
    ∃ k, dropLeadingWs l = l.drop k := by
  induction l with
  | nil => exact ⟨0, rfl⟩
  | cons c cs ih =>
    by_cases h : isJsWs c = true
    · obtain ⟨k, hk⟩ := ih
      exact ⟨k + 1, by simpa [dropLeadingWs, h] using hk⟩
    · exact ⟨0, by simp [dropLeadingWs, h]⟩

theorem dropLeadingWs_head_not_ws (l : List Char) :
    ∀ c cs, dropLeadingWs l = c :: cs → isJsWs c = false := by
  induction l with
  | nil => intro c cs h; simp [dropLeadingWs] at h
  | cons a as ih =>
    intro c cs h
    by_cases ha : isJsWs a = true
    · exact ih c cs (by simpa [dropLeadingWs, ha] using h)
    · rw [dropLeadingWs, if_neg (by simpa using ha)] at h
      cases h
      simpa using ha

theorem trimRightL_is_take (l : List Char) :
    ∃ j, trimRightL l = l.take j := by
  have hsuf : dropLeadingWs l.reverse <:+ l.reverse := by
    obtain ⟨k, hk⟩ := dropLeadingWs_eq_drop l.reverse
    rw [hk]
    exact List.drop_suffix k l.reverse
  have hpre : (dropLeadingWs l.reverse).reverse <+: l := by
    have h2 : (dropLeadingWs l.reverse).reverse <+: l.reverse.reverse :=
      (List.reverse_prefix).mpr hsuf
    simpa using h2
  obtain ⟨t, ht⟩ := hpre
  refine ⟨(trimRightL l).length, ?_⟩
  have hsplit : trimRightL l ++ t = l := by rw [trimRightL]; exact ht
  have htake := List.take_left (trimRightL l) t
  rw [hsplit] at htake
  exact htake.symm

theorem dropLeadingWs_of_trimRight_dropLeading (l : List Char) :
    dropLeadingWs (trimRightL (dropLeadingWs l)) = trimRightL (dropLeadingWs l) := by
  obtain ⟨j, hj⟩ := trimRightL_is_take (dropLeadingWs l)
  rw [hj]
  cases hm : dropLeadingWs l with
  | nil => cases j <;> rfl
  | cons c cs =>
    have hc : isJsWs c = false := dropLeadingWs_head_not_ws l c cs hm
    cases j with
    | zero => rfl
    | succ j' => simp [dropLeadingWs, hc]

theorem trimRightL_idem (l : List Char) : trimRightL (trimRightL l) = trimRightL l := by
  simp [trimRightL, dropLeadingWs_idem]

theorem jsTrim_idem (l : List Char) : jsTrim (jsTrim l) = jsTrim l := by
  rw [jsTrim, jsTrim, dropLeadingWs_of_trimRight_dropLeading, trimRightL_idem]

/- ===================== C9: sanitizer idempotence ===================== -/

theorem removeTagsCore_noop (fuel : Nat) (s : List Char)
    (h : findSubIdxCI sysOpenTag s = none) : removeTagsCore fuel s = s := by
  cases fuel with
  | zero => rfl
  | succ n => simp [removeTagsCore, h]

theorem removeMarkerCore_noop (fuel : Nat) (s : List Char)
    (h : findSubIdxCI interruptMarker s = none) : removeMarkerCore fuel s = s := by
  cases fuel with
  | zero => rfl
  | succ n => simp [removeMarkerCore, h]

/-- C9 counterexample input: removing the inner `<system-reminder>` span
splices the surrounding characters into a brand-new `<system-reminder>` span,
which the single `replace` pass does not rescan. -/
def c9Input : String :=
  "<sys<system-reminder>a</system-reminder>tem-reminder>b</system-reminder>"

/-- C9, claim as stated is false: `cleanSystemTags` is not idempotent.  On
`c9Input` the first application leaves a full `<system-reminder>…</system-reminder>`
span behind, which the second application removes. -/
theorem cleanSystemTags_not_idempotent :
    cleanSystemTags (cleanSystemTags c9Input) ≠ cleanSystemTags c9Input := by
  decide

/-- C9 amended: the sanitizer is idempotent on every input whose sanitized form
no longer contains a `<system-reminder>` open tag nor the
`[Request interrupted by user]` marker (removal can otherwise splice together a
new occurrence, as `c9Input` shows). -/
theorem cleanSystemTags_idempotent_of_clean (s : String)
    (h1 : containsCI "<system-reminder>" (cleanSystemTags s) = false)
    (h2 : containsCI "[Request interrupted by user]" (cleanSystemTags s) = false) :
    cleanSystemTags (cleanSystemTags s) = cleanSystemTags s := by
  have h1' : findSubIdxCI sysOpenTag (cleanSystemTags s).data = none := by
    cases hx : findSubIdxCI sysOpenTag (cleanSystemTags s).data with
    | none => rfl
    | some i =>
      exfalso
      have hc : containsCI "<system-reminder>" (cleanSystemTags s) = true := by
        show (findSubIdxCI sysOpenTag (cleanSystemTags s).data).isSome = true
        rw [hx]; rfl
      rw [hc] at h1
      exact Bool.noConfusion h1
  have h2' : findSubIdxCI interruptMarker (cleanSystemTags s).data = none := by
    cases hx : findSubIdxCI interruptMarker (cleanSystemTags s).data with
    | none => rfl
    | some i =>
      exfalso
      have hc : containsCI "[Request interrupted by user]" (cleanSystemTags s) = true := by
        show (findSubIdxCI interruptMarker (cleanSystemTags s).data).isSome = true
        rw [hx]; rfl
      rw [hc] at h2
      exact Bool.noConfusion h2
  have step : cleanSystemTags (cleanSystemTags s) = ⟨jsTrim (cleanSystemTags s).data⟩ := by
    show (⟨jsTrim (removeMarkerCore
        (removeTagsCore (cleanSystemTags s).data.length (cleanSystemTags s).data).length
        (removeTagsCore (cleanSystemTags s).data.length (cleanSystemTags s).data))⟩ : String)
      = ⟨jsTrim (cleanSystemTags s).data⟩
    rw [removeTagsCore_noop _ _ h1', removeMarkerCore_noop _ _ h2']
  rw [step]
  have hd : (cleanSystemTags s).data
      = jsTrim (removeMarkerCore (removeTagsCore s.data.length s.data).length
          (removeTagsCore s.data.length s.data)) := rfl
  rw [hd, jsTrim_idem]
  rfl

/-- Witness for the amended C9 theorem at a concrete input. -/
theorem cleanSystemTags_idempotent_witness :
    cleanSystemTags (cleanSystemTags "  hello <system-reminder>x</system-reminder> ")
      = cleanSystemTags "  hello <system-reminder>x</system-reminder> " :=
  cleanSystemTags_idempotent_of_clean _ (by decide) (by decide)

/- ===================== JSON values (for JSON.parse / JSON.stringify) ===================== -/

/-- JSON values.  Numbers keep their source token (the adapter only ever
round-trips them; concrete inputs in this development use integer literals,
for which the token and the JS canonical form coincide). -/
inductive Json where
  | null
  | bool (b : Bool)
  | num (raw : List Char)
  | str (s : List Char)
  | arr (elems : List Json)
  | obj (fields : List (List Char × Json))

def isJsonWs (c : Char) : Bool := c == ' ' || c == '\t' || c == '\n' || c == '\r'

def skipJsonWs (l : List Char) : List Char := l.dropWhile isJsonWs

def isDigitCh (c : Char) : Bool := '0' ≤ c && c ≤ '9'

def spanDigits (l : List Char) : List Char × List Char := (l.takeWhile isDigitCh, l.dropWhile isDigitCh)

def hexVal (c : Char) : Option Nat :=
  if isDigitCh c then some (c.toNat - 48)
  else if 'a' ≤ c && c ≤ 'f' then some (c.toNat - 87)
  else if 'A' ≤ c && c ≤ 'F' then some (c.toNat - 55)
  else none

/-- Parse a JSON string body (after the opening quote); returns the decoded
characters and the remainder after the closing quote. -/
def parseJStr : List Char → Option (List Char × List Char)
  | [] => none
  | c :: cs =>
    if c == '"' then some ([], cs)
    else if c == '\\' then
      match cs with
      | [] => none
      | e :: cs' =>
        if e == '"' then (parseJStr cs').map (fun r => ('"' :: r.1, r.2))
        else if e == '\\' then (parseJStr cs').map (fun r => ('\\' :: r.1, r.2))
        else if e == '/' then (parseJStr cs').map (fun r => ('/' :: r.1, r.2))
        else if e == 'n' then (parseJStr cs').map (fun r => ('\n' :: r.1, r.2))
        else if e == 'r' then (parseJStr cs').map (fun r => ('\r' :: r.1, r.2))
        else if e == 't' then (parseJStr cs').map (fun r => ('\t' :: r.1, r.2))
        else if e == 'b' then (parseJStr cs').map (fun r => ('\x08' :: r.1, r.2))
        else if e == 'f' then (parseJStr cs').map (fun r => ('\x0c' :: r.1, r.2))
        else if e == 'u' then
          match cs' with
          | h1 :: h2 :: h3 :: h4 :: rest =>
            match hexVal h1, hexVal h2, hexVal h3, hexVal h4 with
            | some a, some b, some c2, some d =>
              (parseJStr rest).map (fun r =>
                (Char.ofNat (a * 4096 + b * 256 + c2 * 16 + d) :: r.1, r.2))
            | _, _, _, _ => none
          | _ => none
        else none
    else if c.toNat < 32 then none
    else (parseJStr cs).map (fun r => (c :: r.1, r.2))

/-- Parse a JSON number token, returning the raw token and the remainder. -/
def parseJNum (l : List Char) : Option (List Char × List Char) :=
  let (neg, l1) : List Char × List Char :=
    match l with
    | '-' :: r => (['-'], r)
    | _ => ([], l)
  match l1 with
  | [] => none
  | d :: r =>
    if !isDigitCh d then none
    else if d == '0' && (match r with | x :: _ => isDigitCh x | [] => false) then none
    else
      let (ds, r2) := if d == '0' then ([], r) else spanDigits r
      let intPart := d :: ds
      let fracRes : Option (List Char × List Char) :=
        match r2 with
        | '.' :: rr =>
          let (fs, r3) := spanDigits rr
          if fs.isEmpty then none else some ('.' :: fs, r3)
        | _ => some ([], r2)
      match fracRes with
      | none => none
      | some (fracPart, r4) =>
        let expRes : Option (List Char × List Char) :=
          match r4 with
          | e :: rr =>
            if e == 'e' || e == 'E' then
              let (sgn, rr2) : List Char × List Char :=
                match rr with
                | '+' :: z => (['+'], z)
                | '-' :: z => (['-'], z)
                | _ => ([], rr)
              let (es, r5) := spanDigits rr2
              if es.isEmpty then none else some (e :: (sgn ++ es), r5)
            else some ([], r4)
          | [] => some ([], r4)
        match expRes with
        | none => none
        | some (expPart, r6) => some (neg ++ intPart ++ fracPart ++ expPart, r6)

/-- Insert a parsed object member with JS duplicate-key semantics: the first
occurrence keeps its position, the value is overwritten. -/
def insertObjField (fields : List (List Char × Json)) (k : List Char) (v : Json) :
    List (List Char × Json) :=
  match fields with
  | [] => [(k, v)]
  | (k0, v0) :: rest =>
    if k0 == k then (k0, v) :: rest else (k0, v0) :: insertObjField rest k v

mutual

/-- JSON value parser (fuelled); mirrors `JSON.parse` for the fragments the
adapter feeds it. -/
def parseJVal : Nat → List Char → Option (Json × List Char)
  | 0, _ => none
  | fuel + 1, s =>
    match skipJsonWs s with
    | [] => none
    | c :: cs =>
      if c == 'n' then
        if startsWithL "ull".data cs then some (.null, cs.drop 3) else none
      else if c == 't' then
        if startsWithL "rue".data cs then some (.bool true, cs.drop 3) else none
      else if c == 'f' then
        if startsWithL "alse".data cs then some (.bool false, cs.drop 4) else none
      else if c == '"' then
        (parseJStr cs).map (fun r => (.str r.1, r.2))
      else if c == '[' then
        match skipJsonWs cs with
        | ']' :: rest => some (.arr [], rest)
        | s1 =>
          match parseJVal fuel s1 with
          | none => none
          | some (v, rest) => parseJArrRest fuel [v] rest
      else if c == '\x7b' then
        match skipJsonWs cs with
        | '\x7d' :: rest => some (.obj [], rest)
        | s1 => parseJObjMembers fuel [] s1
      else
        (parseJNum (c :: cs)).map (fun r => (.num r.1, r.2))

def parseJArrRest : Nat → List Json → List Char → Option (Json × List Char)
  | 0, _, _ => none
  | fuel + 1, acc, s =>
    match skipJsonWs s with
    | ',' :: r =>
      match parseJVal fuel r with
      | none => none
      | some (v, rest) => parseJArrRest fuel (acc ++ [v]) rest
    | ']' :: r => some (.arr acc, r)
    | _ => none

def parseJObjMembers : Nat → List (List Char × Json) → List Char →
    Option (Json × List Char)
  | 0, _, _ => none
  | fuel + 1, acc, s =>
    match skipJsonWs s with
    | '"' :: r =>
      match parseJStr r with
      | none => none
      | some (key, r2) =>
        match skipJsonWs r2 with
        | ':' :: r3 =>
          match parseJVal fuel r3 with
          | none => none
          | some (v, r4) =>
            let acc' := insertObjField acc key v
            match skipJsonWs r4 with
            | ',' :: r5 => parseJObjMembers fuel acc' r5
            | '\x7d' :: r5 => some (.obj acc', r5)
            | _ => none
        | _ => none
    | _ => none

end

/-- `JSON.parse`: the whole input (modulo surrounding whitespace) must be one
JSON value. -/
def jsonParse (s : List Char) : Option Json :=
  match parseJVal (2 * s.length + 4) s with
  | none => none
  | some (v, rest) => if (skipJsonWs rest).isEmpty then some v else none

def hexDigitLower (n : Nat) : Char :=
  if n < 10 then Char.ofNat (48 + n) else Char.ofNat (87 + n)

/-- `JSON.stringify` string escaping. -/
def jsonEscape : List Char → List Char
  | [] => []
  | c :: cs =>
    if c == '"' then '\\' :: '"' :: jsonEscape cs
    else if c == '\\' then '\\' :: '\\' :: jsonEscape cs
    else if c == '\n' then '\\' :: 'n' :: jsonEscape cs
    else if c == '\r' then '\\' :: 'r' :: jsonEscape cs
    else if c == '\t' then '\\' :: 't' :: jsonEscape cs
    else if c == '\x08' then '\\' :: 'b' :: jsonEscape cs
    else if c == '\x0c' then '\\' :: 'f' :: jsonEscape cs
    else if c.toNat < 32 then
      '\\' :: 'u' :: '0' :: '0' :: hexDigitLower (c.toNat / 16) :: hexDigitLower (c.toNat % 16)
        :: jsonEscape cs
    else c :: jsonEscape cs

def quoteJson (s : List Char) : List Char := '"' :: jsonEscape s ++ ['"']

mutual

/-- `JSON.stringify` over `Json` values. -/
def jsonStringify : Json → List Char
  | .null => "null".data
  | .bool true => "true".data
  | .bool false => "false".data
  | .num raw => raw
  | .str s => quoteJson s
  | .arr es => '[' :: stringifyElems es ++ [']']
  | .obj fs => '\x7b' :: stringifyFields fs ++ ['\x7d']

def stringifyElems : List Json → List Char
  | [] => []
  | [x] => jsonStringify x
  | x :: y :: rest => jsonStringify x ++ ',' :: stringifyElems (y :: rest)

def stringifyFields : List (List Char × Json) → List Char
  | [] => []
  | [(k, v)] => quoteJson k ++ ':' :: jsonStringify v
  | (k, v) :: y :: rest => quoteJson k ++ ':' :: jsonStringify v ++ ',' :: stringifyFields (y :: rest)

end

def getField (j : Json) (key : String) : Option Json :=
  match j with
  | .obj fs => (fs.find? (fun f => f.1 == key.data)).map (·.2)
  | _ => none

/-- JS truthiness of a possibly-missing field value. -/
def jsTruthy : Option Json → Bool
  | none => false
  | some .null => false
  | some (.bool b) => b
  | some (.num raw) =>
    !((raw.takeWhile (fun c => c != 'e' && c != 'E')).all (fun c => !isDigitCh c || c == '0'))
  | some (.str s) => !s.isEmpty
  | some (.arr _) => true
  | some (.obj _) => true

/-- JS string coercion of a JSON value (only the string case is ever exercised
by the adapter's inputs). -/
def jsCoerceString : Json → List Char
  | .str s => s
  | .num raw => raw
  | .bool true => "true".data
  | .bool false => "false".data
  | .null => "null".data
  | .arr _ => []
  | .obj _ => "[object Object]".data

/- ===================== Tool calls and bracket-call parsing ===================== -/

structure ToolFunction where
  name : String
  arguments : String
deriving DecidableEq, Repr

/-- `{id, type: "function", function: {name, arguments}}` (the constant `type`
field is left implicit). -/
structure ToolCall where
  id : String
  function : ToolFunction
deriving DecidableEq, Repr

/-- The `call_<8 hex>` id minted from a random UUID in `parseSingleToolCall`
(claude-kiro.js:157), abstracted as a fixed placeholder. -/
def placeholderCallId : String := "call_00000000"

def isWordCh (c : Char) : Bool :=
  ('a' ≤ c && c ≤ 'z') || ('A' ≤ c && c ≤ 'Z') || isDigitCh c || c == '_'

def startsWithCIL (pat s : List Char) : Bool := startsWithL (lowerL pat) (lowerL (s.take pat.length))

/-- `findMatchingBracket` (claude-kiro.js:74-113): scan for the `]` matching
the leading `[`, tracking double-quoted strings with backslash escapes.
Returns the index of the matching bracket. -/
def fmbGo : List Char → Nat → Nat → Bool → Bool → Option Nat
  | [], _, _, _, _ => none
  | c :: cs, i, count, inString, escapeNext =>
    if escapeNext then fmbGo cs (i + 1) count inString false
    else if c == '\\' && inString then fmbGo cs (i + 1) count inString true
    else if c == '"' then fmbGo cs (i + 1) count (!inString) escapeNext
    else if !inString then
      if c == '[' then fmbGo cs (i + 1) (count + 1) inString escapeNext
      else if c == ']' then
        if count == 1 then some i else fmbGo cs (i + 1) (count - 1) inString escapeNext
      else fmbGo cs (i + 1) count inString escapeNext
    else fmbGo cs (i + 1) count inString escapeNext

def findMatchingBracket (text : List Char) : Option Nat :=
  match text with
  | '[' :: rest => fmbGo rest 1 1 false false
  | _ => none

/-- `repairedJson.replace(/,\s*([}\]])/g, '$1')`: drop a comma (and the
whitespace after it) that directly precedes `}` or `]`. -/
def repairTrailingCommas : Nat → List Char → List Char
  | 0, s => s
  | _, [] => []
  | fuel + 1, c :: cs =>
    if c == ',' then
      match cs.dropWhile isJsWs with
      | b :: rest' =>
        if b == '\x7d' || b == ']' then b :: repairTrailingCommas fuel rest'
        else c :: repairTrailingCommas fuel cs
      | [] => c :: repairTrailingCommas fuel cs
    else c :: repairTrailingCommas fuel cs

/-- `.replace(/([{,]\s*)([a-zA-Z0-9_]+?)\s*:/g, '$1"$2":')`: quote a bare
identifier key after `{` or `,` (whitespace before the colon is dropped by the
replacement). -/
def repairBareKeys : Nat → List Char → List Char
  | 0, s => s
  | _, [] => []
  | fuel + 1, c :: cs =>
    if c == '\x7b' || c == ',' then
      let ws1 := cs.takeWhile isJsWs
      let r1 := cs.dropWhile isJsWs
      let w := r1.takeWhile isWordCh
      let r2 := r1.dropWhile isWordCh
      let r3 := r2.dropWhile isJsWs
      match w, r3 with
      | _ :: _, ':' :: rest =>
        c :: ws1 ++ '"' :: w ++ '"' :: ':' :: repairBareKeys fuel rest
      | _, _ => c :: repairBareKeys fuel cs
    else c :: repairBareKeys fuel cs

/-- `.replace(/:\s*([a-zA-Z0-9_]+)(?=[,\}\]])/g, ':"$1"')`: quote a bare
identifier value after `:` when directly followed by `,`, `}` or `]` (the
lookahead character is not consumed). -/
def repairBareValues : Nat → List Char → List Char
  | 0, s => s
  | _, [] => []
  | fuel + 1, c :: cs =>
    if c == ':' then
      let r1 := cs.dropWhile isJsWs
      let w := r1.takeWhile isWordCh
      let r2 := r1.dropWhile isWordCh
      match w, r2 with
      | _ :: _, b :: _ =>
        if b == ',' || b == '\x7d' || b == ']' then
          c :: '"' :: w ++ '"' :: repairBareValues fuel r2
        else c :: repairBareValues fuel cs
      | _, _ => c :: repairBareValues fuel cs
    else c :: repairBareValues fuel cs

/-- Try the head of the name regex `/\[Called\s+(\w+)\s+with\s+args:/i` at the
start of `s`; returns the captured name on success. -/
def tryCalledAt (s : List Char) : Option (List Char) :=
  match s with
  | '[' :: r =>
    if startsWithCIL "Called".data r then
      let r1 := r.drop 6
      let ws1 := r1.takeWhile isJsWs
      let r2 := r1.dropWhile isJsWs
      let w := r2.takeWhile isWordCh
      let r3 := r2.dropWhile isWordCh
      let ws2 := r3.takeWhile isJsWs
      let r4 := r3.dropWhile isJsWs
      if ws1.isEmpty || w.isEmpty || ws2.isEmpty then none
      else if startsWithCIL "with".data r4 then
        let r5 := r4.drop 4
        let ws3 := r5.takeWhile isJsWs
        let r6 := r5.dropWhile isJsWs
        if ws3.isEmpty then none
        else if startsWithCIL "args:".data r6 then some w else none
      else none
    else none
  | _ => none

/-- First match of the name regex anywhere in the text. -/
def matchCalledName : Nat → List Char → Option (List Char)
  | 0, _ => none
  | _, [] => none
  | fuel + 1, s@(_ :: cs) =>
    match tryCalledAt s with
    | some w => some w
    | none => matchCalledName fuel cs

def lastIndexOfCh (c : Char) (l : List Char) : Option Nat :=
  (l.enum.filter (fun p => p.2 == c)).getLast?.map (·.1)

/-- `parseSingleToolCall` (claude-kiro.js:115-170): extract the function name,
cut the argument text between `with args:` and the last `]`, repair common
JSON malformations, `JSON.parse` it (accepting any non-null `typeof "object"`
value), and re-serialize the arguments. -/
def parseSingleToolCall (toolCallText : List Char) : Option ToolCall :=
  match matchCalledName toolCallText.length toolCallText with
  | none => none
  | some functionName =>
    match findSubIdx "with args:".data (lowerL toolCallText) with
    | none => none
    | some argsStartPos =>
      let argsStart := argsStartPos + 10
      match lastIndexOfCh ']' toolCallText with
      | none => none
      | some argsEnd =>
        if argsEnd ≤ argsStart then none
        else
          let jsonCandidate := jsTrim ((toolCallText.take argsEnd).drop argsStart)
          let repaired := repairBareValues jsonCandidate.length
            (repairBareKeys jsonCandidate.length
              (repairTrailingCommas jsonCandidate.length jsonCandidate))
          match jsonParse repaired with
          | none => none
          | some (.obj fs) =>
            some ⟨placeholderCallId, ⟨⟨functionName⟩, ⟨jsonStringify (.obj fs)⟩⟩⟩
          | some (.arr es) =>
            some ⟨placeholderCallId, ⟨⟨functionName⟩, ⟨jsonStringify (.arr es)⟩⟩⟩
          | some _ => none

/-- All indices at which `pat` occurs (continuing the search one character
after each hit, as the JS `indexOf` loop does). -/
def findAllSub (pat : List Char) : Nat → List Char → Nat → List Nat
  | 0, _, _ => []
  | _, [], i => if startsWithL pat [] then [i] else []
  | fuel + 1, s@(_ :: cs), i =>
    if startsWithL pat s then i :: findAllSub pat fuel cs (i + 1)
    else findAllSub pat fuel cs (i + 1)

/-- `parseBracketToolCalls` (claude-kiro.js:172-220). -/
def parseBracketToolCalls (responseText : List Char) : Option (List ToolCall) :=
  if (findSubIdx "[Called".data responseText).isNone then none
  else
    let callPositions := findAllSub "[Called".data (responseText.length + 1) responseText 0
    let segments := segmentsOfPositions responseText callPositions
    let toolCalls := segments.filterMap (fun seg =>
      match findMatchingBracket seg with
      | some bracketEnd => parseSingleToolCall (seg.take (bracketEnd + 1))
      | none =>
        match lastIndexOfCh ']' seg with
        | some lastBracket => parseSingleToolCall (seg.take (lastBracket + 1))
        | none => none)
    if toolCalls.isEmpty then none else some toolCalls
where
  /-- Segment `i` runs from `positions[i]` to `positions[i+1]` (or the end). -/
  segmentsOfPositions (text : List Char) : List Nat → List (List Char)
    | [] => []
    | [p] => [text.drop p]
    | p :: q :: rest => (text.take q).drop p :: segmentsOfPositions text (q :: rest)

/-- `deduplicateToolCalls` (claude-kiro.js:222-236): first occurrence wins,
keyed by the string `name + "-" + arguments`. -/
def dedupGo (seen : List String) : List ToolCall → List ToolCall
  | [] => []
  | tc :: rest =>
    let key := tc.function.name ++ "-" ++ tc.function.arguments
    if seen.contains key then dedupGo seen rest
    else tc :: dedupGo (key :: seen) rest

def deduplicateToolCalls (toolCalls : List ToolCall) : List ToolCall := dedupGo [] toolCalls

/- ===================== Event-stream framing (claude-kiro.js:865-962) ===================== -/

/-- Matches of `/:message-typeevent(\{[^]*?(?=:event-type|$))/g`: each capture
starts at the `{` directly after the marker and runs lazily to the next
`:event-type` marker (or the end); scanning resumes at the capture end. -/
def sseBlocks : Nat → List Char → List (List Char)
  | 0, _ => []
  | fuel + 1, s =>
    match findSubIdx ":message-typeevent\x7b".data s with
    | none => []
    | some p =>
      let rest := s.drop (p + 18)
      match findSubIdx ":event-type".data (rest.drop 1) with
      | none => [rest]
      | some j => rest.take (1 + j) :: sseBlocks fuel (rest.drop (1 + j))

/-- Matches of the fallback `/event(\{.*?(?=event\{|$))/gs`. -/
def legacyBlocks : Nat → List Char → List (List Char)
  | 0, _ => []
  | fuel + 1, s =>
    match findSubIdx "event\x7b".data s with
    | none => []
    | some p =>
      let rest := s.drop (p + 5)
      match findSubIdx "event\x7b".data (rest.drop 1) with
      | none => [rest]
      | some j => rest.take (1 + j) :: legacyBlocks fuel (rest.drop (1 + j))

/-- The `while ((searchPos = potentialJsonBlock.indexOf('}', searchPos + 1)) ...)`
loop: try each prefix of the block ending at a `}` (index ≥ 1) until one parses
as JSON. -/
def firstJsonPrefix (block : List Char) : Option Json :=
  go ((block.enum.filter (fun p => decide (1 ≤ p.1) && p.2 == '\x7d')).map (·.1))
where
  go : List Nat → Option Json
    | [] => none
    | p :: rest =>
      match jsonParse (jsTrim (block.take (p + 1))) with
      | some v => some v
      | none => go rest

/-- `decodedContent.replace(/(?<!\\)\\n/g, '\n')`: a literal `\n` two-character
sequence not preceded by a backslash becomes a newline. -/
def unescapeNewlines (l : List Char) : List Char := go none l
where
  go : Option Char → List Char → List Char
    | _, [] => []
    | prev, '\\' :: 'n' :: rest =>
      if prev == some '\\' then '\\' :: go (some '\\') ('n' :: rest)
      else '\n' :: go (some 'n') rest
    | _, c :: cs => c :: go (some c) cs

/-- Event dispatch of `parseEventStreamChunk` (claude-kiro.js:896-933), folded
over the decoded events.  State: accumulated content, emitted tool calls, and
the single in-flight tool-call builder (`currentToolCallDict`). -/
def processEvent (st : List Char × List ToolCall × Option ToolCall) (ev : Json) :
    List Char × List ToolCall × Option ToolCall :=
  let fullContent := st.1
  let toolCalls := st.2.1
  let current := st.2.2
  if jsTruthy (getField ev "name") && jsTruthy (getField ev "toolUseId") then
    let cur :=
      match current with
      | none =>
        { id := ⟨jsCoerceString ((getField ev "toolUseId").getD .null)⟩,
          function := { name := ⟨jsCoerceString ((getField ev "name").getD .null)⟩,
                        arguments := "" } : ToolCall }
      | some c => c
    let cur :=
      if jsTruthy (getField ev "input") then
        { cur with function := { cur.function with arguments :=
            cur.function.arguments ++ ⟨jsCoerceString ((getField ev "input").getD .null)⟩ } }
      else cur
    if jsTruthy (getField ev "stop") then
      let args :=
        match jsonParse cur.function.arguments.data with
        | some v => (⟨jsonStringify v⟩ : String)
        | none => cur.function.arguments
      (fullContent, toolCalls ++ [{ cur with function := { cur.function with arguments := args } }],
       none)
    else (fullContent, toolCalls, some cur)
  else if !jsTruthy (getField ev "followupPrompt") && jsTruthy (getField ev "content") then
    (fullContent ++ unescapeNewlines (jsCoerceString ((getField ev "content").getD .null)),
     toolCalls, current)
  else (fullContent, toolCalls, current)

/- ===================== Tool-call-span removal regex ===================== -/

/-- Backtracking for `[^}]*` (greedy, longest first) followed by the
continuation. -/
def matchAStar (s : List Char) (k : List Char → Option (List Char)) : Option (List Char) :=
  go ((s.takeWhile (fun c => c != '\x7d')).length)
where
  go : Nat → Option (List Char)
    | 0 => k s
    | n + 1 =>
      match k (s.drop (n + 1)) with
      | some r => some r
      | none => go n

/-- Backtracking for `(?:\{[^}]*\}[^}]*)*` (greedy: prefer one more iteration). -/
def matchGroupStar : Nat → List Char → (List Char → Option (List Char)) →
    Option (List Char)
  | 0, s, k => k s
  | fuel + 1, s, k =>
    let iterate :=
      match s with
      | '\x7b' :: s1 =>
        matchAStar s1 (fun s2 =>
          match s2 with
          | '\x7d' :: s3 => matchAStar s3 (fun s4 => matchGroupStar fuel s4 k)
          | _ => none)
      | _ => none
    match iterate with
    | some r => some r
    | none => k s

/-- Try the cleanup regex
`\[Called\s+NAME\s+with\s+args:\s*\{[^}]*(?:\{[^}]*\}[^}]*)*\}\]` (case
**sensitive**, claude-kiro.js:954/1102) at the start of `s`; on success return
the remainder after the match. -/
def tryRemovalAt (name : List Char) (s : List Char) : Option (List Char) :=
  match s with
  | '[' :: r =>
    if startsWithL "Called".data r then
      let r1 := r.drop 6
      let ws1 := r1.takeWhile isJsWs
      let r2 := r1.dropWhile isJsWs
      if ws1.isEmpty then none
      else if startsWithL name r2 then
        let r3 := r2.drop name.length
        let ws2 := r3.takeWhile isJsWs
        let r4 := r3.dropWhile isJsWs
        if ws2.isEmpty then none
        else if startsWithL "with".data r4 then
          let r5 := r4.drop 4
          let ws3 := r5.takeWhile isJsWs
          let r6 := r5.dropWhile isJsWs
          if ws3.isEmpty then none
          else if startsWithL "args:".data r6 then
            let r7 := (r6.drop 5).dropWhile isJsWs
            match r7 with
            | '\x7b' :: s1 =>
              matchAStar s1 (fun s2 =>
                matchGroupStar (s2.length + 1) s2 (fun s3 =>
                  match s3 with
                  | '\x7d' :: ']' :: rest => some rest
                  | _ => none))
            | _ => none
          else none
        else none
      else none
    else none
  | _ => none

/-- Global replace of the cleanup regex for one tool-call name with the empty
string. -/
def removeCalledPattern (name : List Char) : Nat → List Char → List Char
  | 0, s => s
  | _, [] => []
  | fuel + 1, c :: cs =>
    match tryRemovalAt name (c :: cs) with
    | some rest => removeCalledPattern name fuel rest
    | none => c :: removeCalledPattern name fuel cs

/-- `.replace(/\s+/g, ' ')`. -/
def collapseWs : Nat → List Char → List Char
  | 0, s => s
  | _, [] => []
  | fuel + 1, c :: cs =>
    if isJsWs c then ' ' :: collapseWs fuel (cs.dropWhile isJsWs)
    else c :: collapseWs fuel cs

/-- Strip every matched bracket span for the given calls from the text, then
collapse whitespace and trim (claude-kiro.js:951-957 and 1099-1105). -/
def stripCallSpans (calls : List ToolCall) (text : List Char) : List Char :=
  let cleaned := calls.foldl
    (fun acc tc => removeCalledPattern tc.function.name.data (acc.length + 1) acc) text
  jsTrim (collapseWs (cleaned.length + 1) cleaned)

/- ===================== parseEventStreamChunk / _processApiResponse ===================== -/

/-- `parseEventStreamChunk` (claude-kiro.js:865-962): frame events (primary
SSE grammar, legacy fallback), decode the first valid JSON prefix of each
block, fold the event dispatch, flush a dangling builder, then extract and
strip bracket tool calls from the accumulated content and deduplicate. -/
def parseEventStreamChunk (raw : String) : String × List ToolCall :=
  let rawStr := raw.data
  let sse := sseBlocks (rawStr.length + 1) rawStr
  let blocks := if sse.isEmpty then legacyBlocks (rawStr.length + 1) rawStr else sse
  let events := blocks.filterMap (fun b => if (jsTrim b).isEmpty then none else firstJsonPrefix b)
  let st := events.foldl processEvent ([], [], none)
  let toolCalls :=
    match st.2.2 with
    | some c => st.2.1 ++ [c]
    | none => st.2.1
  let result :=
    match parseBracketToolCalls st.1 with
    | some bracketCalls => (stripCallSpans bracketCalls st.1, toolCalls ++ bracketCalls)
    | none => (st.1, toolCalls)
  (⟨result.1⟩, deduplicateToolCalls result.2)

/-- `_processApiResponse` (claude-kiro.js:1071-1111): parse the event stream,
additionally scan the raw buffer for bracket calls, deduplicate everything,
and re-strip every unique call's span from the response text. -/
def processApiResponse (raw : String) : String × List ToolCall :=
  let parsed := parseEventStreamChunk raw
  let allToolCalls := parsed.2 ++ (parseBracketToolCalls raw.data).getD []
  let uniqueToolCalls := deduplicateToolCalls allToolCalls
  let fullResponseText :=
    if uniqueToolCalls.isEmpty then parsed.1.data
    else stripCallSpans uniqueToolCalls parsed.1.data
  (⟨fullResponseText⟩, uniqueToolCalls)

/-- The bracket-tool-call grammar, decided by the adapter's own parser. -/
def containsBracketToolCall (s : String) : Bool := (parseBracketToolCalls s.data).isSome

/- ===================== C4: bracket spans surviving cleanup ===================== -/

/-- Raw upstream buffer `event{"content":"[Called X with args: {\"a\":\"x}y\"}]"}`:
the argument object contains a `}` inside a string literal, which the
string-aware bracket scanner parses but the `[^}]*`-based cleanup regex cannot
span. -/
def c4Raw : String :=
  "event\x7b\"content\":\"[Called X with args: \x7b\\\"a\\\":\\\"x\x7dy\\\"\x7d]\"\x7d"

/-- C4 fails on the code: after `_processApiResponse`, `responseText` still
contains a full bracket-tool-call span (the cleanup regex only matches
argument bodies whose `}` characters are structural and at most one level
deep, while the parser accepts `}` inside strings). -/
theorem processApiResponse_leaves_bracket_span :
    (processApiResponse c4Raw).1 = "[Called X with args: \x7b\"a\":\"x\x7dy\"\x7d]"
    ∧ containsBracketToolCall (processApiResponse c4Raw).1 = true
    ∧ (processApiResponse c4Raw).2 =
        [⟨placeholderCallId, ⟨"X", "\x7b\"a\":\"x\x7dy\"\x7d"⟩⟩] := by
  set_option maxRecDepth 100000 in decide

/- ===================== C7: tool-use event builder ===================== -/

/-- Raw buffer with two interleaved structured tool-use streams:
`t1` sends `input "x"`, then `t2` sends `input "y"`, then `t1` stops. -/
def c7Raw : String :=
  "event\x7b\"name\":\"A\",\"toolUseId\":\"t1\",\"input\":\"x\"\x7devent\x7b\"name\":\"B\",\"toolUseId\":\"t2\",\"input\":\"y\"\x7devent\x7b\"name\":\"A\",\"toolUseId\":\"t1\",\"stop\":true\x7d"

/-- C7, claim as stated is false: the parser keeps a single in-flight builder
(`currentToolCallDict`), not one per `toolUseId`; interleaved events for two
ids produce a single call whose arguments mix both ids' chunks. -/
theorem parseEventStreamChunk_interleaved_counterexample :
    (parseEventStreamChunk c7Raw).2 = [⟨"t1", ⟨"A", "xy"⟩⟩]
    ∧ (parseEventStreamChunk c7Raw).2 ≠
        [⟨"t1", ⟨"A", "x"⟩⟩, ⟨"t2", ⟨"B", "y"⟩⟩] := by
  set_option maxRecDepth 100000 in decide

/-- A structured tool-use event `{name, toolUseId, input?, stop?}`. -/
def mkToolEvent (name id : String) (input : Option String) (stop : Bool) : Json :=
  .obj ([("name".data, .str name.data), ("toolUseId".data, .str id.data)]
    ++ (match input with
        | some s => [("input".data, Json.str s.data)]
        | none => [])
    ++ (if stop then [("stop".data, Json.bool true)] else []))

/-- Input chunks of one tool-use stream (no stop flag). -/
def chunkEvents (name id : String) (chunks : List String) : List Json :=
  chunks.map (fun s => mkToolEvent name id (some s) false)

def joinAll : List String → String
  | [] => ""
  | s :: rest => s ++ joinAll rest

/-- The on-stop argument validation: re-serialize if the accumulated string
parses as JSON, otherwise keep the raw string. -/
def normalizeArgs (s : String) : String :=
  match jsonParse s.data with
  | some v => ⟨jsonStringify v⟩
  | none => s

theorem getField_te_name (n i : String) (inp : Option String) (st : Bool) :
    getField (mkToolEvent n i inp st) "name" = some (.str n.data) := by
  cases inp <;> cases st <;> rfl

theorem getField_te_tuid (n i : String) (inp : Option String) (st : Bool) :
    getField (mkToolEvent n i inp st) "toolUseId" = some (.str i.data) := by
  cases inp <;> cases st <;> rfl

theorem getField_te_input_some (n i s : String) (st : Bool) :
    getField (mkToolEvent n i (some s) st) "input" = some (.str s.data) := by
  cases st <;> rfl

theorem getField_te_input_none (n i : String) (st : Bool) :
    getField (mkToolEvent n i none st) "input" = none := by
  cases st <;> rfl

theorem getField_te_stop_true (n i : String) (inp : Option String) :
    getField (mkToolEvent n i inp true) "stop" = some (.bool true) := by
  cases inp <;> rfl

theorem getField_te_stop_false (n i : String) (inp : Option String) :
    getField (mkToolEvent n i inp false) "stop" = none := by
  cases inp <;> rfl

theorem data_isEmpty_false {s : String} (h : s ≠ "") : s.data.isEmpty = false := by
  cases s with
  | mk d =>
    cases d with
    | nil => exact absurd rfl h
    | cons c cs => rfl

theorem string_of_data_nil {s : String} (h : s.data = []) : s = "" := by
  cases s with
  | mk d => cases h; rfl

theorem processEvent_chunk_open (fc : List Char) (tcs : List ToolCall) (n i s : String)
    (hn : n ≠ "") (hi : i ≠ "") :
    processEvent (fc, tcs, none) (mkToolEvent n i (some s) false)
      = (fc, tcs, some ⟨i, ⟨n, s⟩⟩) := by
  unfold processEvent
  rw [getField_te_name, getField_te_tuid, getField_te_input_some, getField_te_stop_false]
  by_cases hs : s.data.isEmpty = true
  · have hs' : s = "" := string_of_data_nil (by simpa [List.isEmpty_iff] using hs)
    subst hs'
    simp [jsTruthy, data_isEmpty_false hn, data_isEmpty_false hi, jsCoerceString]
  · simp only [Bool.not_eq_true] at hs
    simp [jsTruthy, data_isEmpty_false hn, data_isEmpty_false hi, hs, jsCoerceString]

theorem processEvent_chunk_append (fc : List Char) (tcs : List ToolCall) (cur : ToolCall)
    (n i s : String) (hn : n ≠ "") (hi : i ≠ "") :
    processEvent (fc, tcs, some cur) (mkToolEvent n i (some s) false)
      = (fc, tcs, some { cur with function :=
          { cur.function with arguments := cur.function.arguments ++ s } }) := by
  unfold processEvent
  rw [getField_te_name, getField_te_tuid, getField_te_input_some, getField_te_stop_false]
  by_cases hs : s.data.isEmpty = true
  · have hs' : s = "" := string_of_data_nil (by simpa [List.isEmpty_iff] using hs)
    subst hs'
    simp [jsTruthy, data_isEmpty_false hn, data_isEmpty_false hi, jsCoerceString]
  · simp only [Bool.not_eq_true] at hs
    simp [jsTruthy, data_isEmpty_false hn, data_isEmpty_false hi, hs, jsCoerceString]

theorem processEvent_stop_some (fc : List Char) (tcs : List ToolCall) (cur : ToolCall)
    (n i : String) (hn : n ≠ "") (hi : i ≠ "") :
    processEvent (fc, tcs, some cur) (mkToolEvent n i none true)
      = (fc, tcs ++ [{ cur with function :=
          { cur.function with arguments := normalizeArgs cur.function.arguments } }], none) := by
  unfold processEvent
  rw [getField_te_name, getField_te_tuid, getField_te_input_none, getField_te_stop_true]
  simp [jsTruthy, data_isEmpty_false hn, data_isEmpty_false hi, normalizeArgs]

theorem processEvent_stop_none (fc : List Char) (tcs : List ToolCall)
    (n i : String) (hn : n ≠ "") (hi : i ≠ "") :
    processEvent (fc, tcs, none) (mkToolEvent n i none true)
      = (fc, tcs ++ [⟨i, ⟨n, normalizeArgs ""⟩⟩], none) := by
  unfold processEvent
  rw [getField_te_name, getField_te_tuid, getField_te_input_none, getField_te_stop_true]
  simp [jsTruthy, data_isEmpty_false hn, data_isEmpty_false hi, jsCoerceString, normalizeArgs]

theorem foldl_chunkEvents (n i : String) (hn : n ≠ "") (hi : i ≠ "")
    (cs : List String) :
    ∀ fc tcs (cur : ToolCall),
      List.foldl processEvent (fc, tcs, some cur) (chunkEvents n i cs)
        = (fc, tcs, some { cur with function :=
            { cur.function with arguments := cur.function.arguments ++ joinAll cs } }) := by
  induction cs with
  | nil =>
    intro fc tcs cur
    simp [chunkEvents, joinAll]
  | cons c rest ih =>
    intro fc tcs cur
    rw [chunkEvents, List.map_cons, List.foldl_cons,
      processEvent_chunk_append fc tcs cur n i c hn hi]
    rw [show (List.map (fun s => mkToolEvent n i (some s) false) rest) = chunkEvents n i rest
          from rfl,
      ih fc tcs _]
    simp [joinAll, String.append_assoc]

/-- One contiguous, stop-terminated tool-use stream folds to a single emitted
call carrying exactly its own chunks. -/
theorem foldl_stream_block (n i : String) (hn : n ≠ "") (hi : i ≠ "")
    (cs : List String) (fc : List Char) (tcs : List ToolCall) :
    List.foldl processEvent (fc, tcs, none)
        (chunkEvents n i cs ++ [mkToolEvent n i none true])
      = (fc, tcs ++ [⟨i, ⟨n, normalizeArgs (joinAll cs)⟩⟩], none) := by
  cases cs with
  | nil =>
    simp only [chunkEvents, List.map_nil, List.nil_append, List.foldl_cons, List.foldl_nil]
    exact processEvent_stop_none fc tcs n i hn hi
  | cons c rest =>
    rw [chunkEvents, List.map_cons, List.cons_append, List.foldl_cons,
      processEvent_chunk_open fc tcs n i c hn hi, List.foldl_append,
      show (List.map (fun s => mkToolEvent n i (some s) false) rest) = chunkEvents n i rest
        from rfl,
      foldl_chunkEvents n i hn hi rest fc tcs _]
    simp only [List.foldl_cons, List.foldl_nil]
    rw [processEvent_stop_some fc tcs _ n i hn hi]
    rfl

/-- C7 amended: the parser keeps one in-flight builder; for event streams in
which the structured tool-use events are *not interleaved* (each tool's input
chunks are contiguous and terminated by its stop event, and every event
carries `name` and `toolUseId`), the two tools yield two distinct calls, each
carrying exactly the concatenation of its own chunks, JSON-validated on stop. -/
theorem processEvent_sequential_tools (a t1 b t2 : String) (xs ys : List String)
    (ha : a ≠ "") (h1 : t1 ≠ "") (hb : b ≠ "") (h2 : t2 ≠ "") :
    List.foldl processEvent ([], [], none)
        ((chunkEvents a t1 xs ++ [mkToolEvent a t1 none true])
          ++ (chunkEvents b t2 ys ++ [mkToolEvent b t2 none true]))
      = ([], [⟨t1, ⟨a, normalizeArgs (joinAll xs)⟩⟩,
              ⟨t2, ⟨b, normalizeArgs (joinAll ys)⟩⟩], none) := by
  rw [List.foldl_append, foldl_stream_block a t1 ha h1 xs [] [],
    foldl_stream_block b t2 hb h2 ys [] _]
  rfl

/-- Witness for the amended C7 theorem at a concrete event stream. -/
theorem processEvent_sequential_tools_witness :
    List.foldl processEvent ([], [], none)
        ((chunkEvents "A" "t1" ["\x7b\"p\"", ":1\x7d"] ++ [mkToolEvent "A" "t1" none true])
          ++ (chunkEvents "B" "t2" ["\x7b\x7d"] ++ [mkToolEvent "B" "t2" none true]))
      = ([], [⟨"t1", ⟨"A", normalizeArgs (joinAll ["\x7b\"p\"", ":1\x7d"])⟩⟩,
              ⟨"t2", ⟨"B", normalizeArgs (joinAll ["\x7b\x7d"])⟩⟩], none) :=
  processEvent_sequential_tools "A" "t1" "B" "t2" ["\x7b\"p\"", ":1\x7d"] ["\x7b\x7d"]
    (by decide) (by decide) (by decide) (by decide)

/- ===================== buildClaudeResponse (claude-kiro.js:1182-1356) ===================== -/

/-- `Math.ceil(text.length / 4)`. -/
def estimateTokens (text : String) : Nat := (text.length + 3) / 4

inductive ContentBlock where
  | text (t : String)
  | toolUse (id name input : String)
deriving DecidableEq, Repr

inductive StreamEvent where
  | messageStart (content : List ContentBlock)
  | contentBlockStartText (index : Nat) (text : String)
  | contentBlockStartToolUse (index : Nat) (id name : String)
  | contentBlockDeltaText (index : Nat) (text : String)
  | contentBlockDeltaInputJson (index : Nat) (argumentsJson : String)
  | contentBlockStop (index : Nat)
  | messageDelta (stopReason : String) (stopSequence : Option String) (outputTokens : Nat)
  | messageStop
deriving DecidableEq, Repr

/-- The start/delta/stop triple pushed per tool call in the stream branch
(claude-kiro.js:1247-1287); `input: {}` in the start event and the full
argument string as one `input_json_delta`. -/
def toolTriples : Nat → List ToolCall → List StreamEvent
  | _, [] => []
  | i, tc :: rest =>
    .contentBlockStartToolUse i tc.id tc.function.name
      :: .contentBlockDeltaInputJson i tc.function.arguments
      :: .contentBlockStop i
      :: toolTriples (i + 1) rest

/-- Stream-branch token estimate per call:
`estimateTokens(JSON.stringify(inputObject))` where `inputObject` is the
argument string. -/
def streamCallTokens (tc : ToolCall) : Nat :=
  ((quoteJson tc.function.arguments.data).length + 3) / 4

def sumStreamTokens : List ToolCall → Nat
  | [] => 0
  | tc :: rest => streamCallTokens tc + sumStreamTokens rest

/-- `buildClaudeResponse(content, true, role, model, toolCalls)`
(claude-kiro.js:1187-1306), transcribed: the text block (if `content` is
truthy) is pushed *before* the tool-call triples although its `index` is the
number of tool calls; the final delta carries `stop_reason` and a null
`stop_sequence`. -/
def buildClaudeResponseStream (content : String) (toolCalls : List ToolCall) :
    List StreamEvent :=
  let events0 : List StreamEvent := [.messageStart []]
  let contentBlockIndex := if toolCalls.length > 0 then toolCalls.length else 0
  let st1 :=
    if content ≠ "" then
      (events0 ++ [.contentBlockStartText contentBlockIndex "",
                   .contentBlockDeltaText contentBlockIndex content,
                   .contentBlockStop contentBlockIndex],
       estimateTokens content)
    else (events0, 0)
  let st2 :=
    if toolCalls.length > 0 then
      (st1.1 ++ toolTriples 0 toolCalls, st1.2 + sumStreamTokens toolCalls, "tool_use")
    else (st1.1, st1.2, "end_turn")
  st2.1 ++ [.messageDelta st2.2.2 none st2.2.1, .messageStop]

structure NonStreamResponse where
  stopReason : String
  stopSequence : Option String
  outputTokens : Nat
  content : List ContentBlock
deriving DecidableEq, Repr

def sumNonStreamTokens : List ToolCall → Nat
  | [] => 0
  | tc :: rest => estimateTokens tc.function.arguments + sumNonStreamTokens rest

/-- `buildClaudeResponse(content, false, ...)` (claude-kiro.js:1307-1355):
tool calls win over text content (text is dropped whenever any tool call
exists). -/
def buildClaudeResponseNonStream (content : String) (toolCalls : List ToolCall) :
    NonStreamResponse :=
  if toolCalls.length > 0 then
    { stopReason := "tool_use", stopSequence := none,
      outputTokens := sumNonStreamTokens toolCalls,
      content := toolCalls.map (fun tc => .toolUse tc.id tc.function.name tc.function.arguments) }
  else if content ≠ "" then
    { stopReason := "end_turn", stopSequence := none,
      outputTokens := estimateTokens content,
      content := [.text content] }
  else
    { stopReason := "end_turn", stopSequence := none, outputTokens := 0, content := [] }

/-- Event sequence in the order claimed by the spec (§4.D): tool triples
first, then the text triple at index `k`. -/
def claimedStreamOrder (content : String) (toolCalls : List ToolCall) : List StreamEvent :=
  [.messageStart []]
  ++ toolTriples 0 toolCalls
  ++ (if content ≠ "" then
        [.contentBlockStartText toolCalls.length "",
         .contentBlockDeltaText toolCalls.length content,
         .contentBlockStop toolCalls.length]
      else [])
  ++ [.messageDelta (if toolCalls.length > 0 then "tool_use" else "end_turn") none
        ((if content ≠ "" then estimateTokens content else 0) + sumStreamTokens toolCalls),
      .messageStop]

/-- Event sequence in the order the code actually emits: the text triple (with
index `k` = number of tool calls) comes *before* the tool triples. -/
def emittedStreamOrder (content : String) (toolCalls : List ToolCall) : List StreamEvent :=
  [.messageStart []]
  ++ (if content ≠ "" then
        [.contentBlockStartText toolCalls.length "",
         .contentBlockDeltaText toolCalls.length content,
         .contentBlockStop toolCalls.length]
      else [])
  ++ toolTriples 0 toolCalls
  ++ [.messageDelta (if toolCalls.length > 0 then "tool_use" else "end_turn") none
        ((if content ≠ "" then estimateTokens content else 0)
          + (if toolCalls.length > 0 then sumStreamTokens toolCalls else 0)),
      .messageStop]

/-- Shared shape lemma: the stream builder emits exactly `emittedStreamOrder`. -/
theorem buildClaudeResponseStream_shape (content : String) (toolCalls : List ToolCall) :
    buildClaudeResponseStream content toolCalls = emittedStreamOrder content toolCalls := by
  cases toolCalls with
  | nil =>
    by_cases hc : content = ""
    · simp [buildClaudeResponseStream, emittedStreamOrder, hc, toolTriples]
    · simp [buildClaudeResponseStream, emittedStreamOrder, hc, toolTriples]
  | cons tc rest =>
    by_cases hc : content = ""
    · simp [buildClaudeResponseStream, emittedStreamOrder, hc]
    · simp [buildClaudeResponseStream, emittedStreamOrder, hc]

/- ===================== C2: pseudo-stream event order ===================== -/

def c2ToolCall : ToolCall := ⟨"toolu_1", ⟨"Bash", "\x7b\x7d"⟩⟩

/-- C2, claim as stated is false: with both text and a tool call, the code
emits the text triple first (at index `k`), not after the tool triples as the
spec's §4.D order requires. -/
theorem buildClaudeResponseStream_order_counterexample :
    buildClaudeResponseStream "hi" [c2ToolCall] ≠ claimedStreamOrder "hi" [c2ToolCall] := by
  decide

/-- C2 amended: the events are emitted in this exact order: `message_start`
with empty content; then, if text content exists, the text triple
(`content_block_start(text)` at index `k`, `text_delta`, `content_block_stop`);
then for each tool call at index 0..k-1 its triple; then `message_delta` with
`stop_reason = "tool_use"` iff any calls (else `"end_turn"`) and null
`stop_sequence`; then `message_stop`. -/
theorem buildClaudeResponseStream_order (content : String) (toolCalls : List ToolCall) :
    buildClaudeResponseStream content toolCalls = emittedStreamOrder content toolCalls :=
  buildClaudeResponseStream_shape content toolCalls

/- ===================== C3: stream / non-stream agreement ===================== -/

def streamTextConcat : List StreamEvent → String
  | [] => ""
  | .contentBlockDeltaText _ t :: rest => t ++ streamTextConcat rest
  | _ :: rest => streamTextConcat rest

def streamToolBlocks : List StreamEvent → List (String × String)
  | [] => []
  | .contentBlockStartToolUse _ id name :: rest => (id, name) :: streamToolBlocks rest
  | _ :: rest => streamToolBlocks rest

def streamToolArgs : List StreamEvent → List String
  | [] => []
  | .contentBlockDeltaInputJson _ a :: rest => a :: streamToolArgs rest
  | _ :: rest => streamToolArgs rest

def blocksText : List ContentBlock → String
  | [] => ""
  | .text t :: rest => t ++ blocksText rest
  | _ :: rest => blocksText rest

def blockToolUse : ContentBlock → Option (String × String × String)
  | .toolUse id name input => some (id, name, input)
  | _ => none

def nonStreamToolUses (r : NonStreamResponse) : List (String × String × String) :=
  r.content.filterMap blockToolUse

def c3ToolCall : ToolCall := ⟨"toolu_2", ⟨"Read", "\x7b\"p\":\"f\"\x7d"⟩⟩

/-- C3, claim as stated is false: when text content and tool calls are both
present, the stream carries the text as a `text_delta` while the non-streaming
content array drops the text entirely, so the texts differ. -/
theorem buildClaudeResponse_text_agreement_counterexample :
    streamTextConcat (buildClaudeResponseStream "hi" [c3ToolCall])
      ≠ blocksText (buildClaudeResponseNonStream "hi" [c3ToolCall]).content := by
  decide

theorem streamTextConcat_append (a b : List StreamEvent) :
    streamTextConcat (a ++ b) = streamTextConcat a ++ streamTextConcat b := by
  induction a with
  | nil => simp [streamTextConcat]
  | cons e rest ih => cases e <;> simp [streamTextConcat, ih, String.append_assoc]

theorem streamToolBlocks_append (a b : List StreamEvent) :
    streamToolBlocks (a ++ b) = streamToolBlocks a ++ streamToolBlocks b := by
  induction a with
  | nil => simp [streamToolBlocks]
  | cons e rest ih => cases e <;> simp [streamToolBlocks, ih]

theorem streamToolArgs_append (a b : List StreamEvent) :
    streamToolArgs (a ++ b) = streamToolArgs a ++ streamToolArgs b := by
  induction a with
  | nil => simp [streamToolArgs]
  | cons e rest ih => cases e <;> simp [streamToolArgs, ih]

theorem streamTextConcat_toolTriples (i : Nat) (tcs : List ToolCall) :
    streamTextConcat (toolTriples i tcs) = "" := by
  induction tcs generalizing i with
  | nil => rfl
  | cons tc rest ih => simp [toolTriples, streamTextConcat, ih]

theorem streamToolBlocks_toolTriples (i : Nat) (tcs : List ToolCall) :
    streamToolBlocks (toolTriples i tcs) = tcs.map (fun tc => (tc.id, tc.function.name)) := by
  induction tcs generalizing i with
  | nil => rfl
  | cons tc rest ih => simp [toolTriples, streamToolBlocks, ih]

theorem streamToolArgs_toolTriples (i : Nat) (tcs : List ToolCall) :
    streamToolArgs (toolTriples i tcs) = tcs.map (fun tc => tc.function.arguments) := by
  induction tcs generalizing i with
  | nil => rfl
  | cons tc rest ih => simp [toolTriples, streamToolArgs, ih]

theorem filterMap_blockToolUse (tcs : List ToolCall) :
    List.filterMap blockToolUse
        (tcs.map (fun tc => ContentBlock.toolUse tc.id tc.function.name tc.function.arguments))
      = tcs.map (fun tc => (tc.id, tc.function.name, tc.function.arguments)) := by
  induction tcs with
  | nil => rfl
  | cons tc rest ih => simp [blockToolUse, ih]

theorem nonStreamToolUses_spec (content : String) (toolCalls : List ToolCall) :
    nonStreamToolUses (buildClaudeResponseNonStream content toolCalls)
      = toolCalls.map (fun tc => (tc.id, tc.function.name, tc.function.arguments)) := by
  cases toolCalls with
  | nil =>
    by_cases hc : content = "" <;>
      simp [buildClaudeResponseNonStream, nonStreamToolUses, blockToolUse, hc]
  | cons tc rest =>
    have h := filterMap_blockToolUse (tc :: rest)
    simpa [buildClaudeResponseNonStream, nonStreamToolUses] using h

theorem blocksText_toolUses (tcs : List ToolCall) :
    blocksText (tcs.map (fun tc =>
      ContentBlock.toolUse tc.id tc.function.name tc.function.arguments)) = "" := by
  induction tcs with
  | nil => rfl
  | cons tc rest ih => simpa [blocksText] using ih

/-- C3 amended: the `tool_use` blocks of the stream (start events paired with
their `input_json_delta`s) always agree with the non-streaming `tool_use`
entries (same ids, names, arguments); the texts agree whenever text content
and tool calls are not both present (the counterexample shows they differ when
both are). -/
theorem buildClaudeResponse_stream_nonstream_agreement (content : String)
    (toolCalls : List ToolCall) :
    (streamToolBlocks (buildClaudeResponseStream content toolCalls)
        = (nonStreamToolUses (buildClaudeResponseNonStream content toolCalls)).map
            (fun u => (u.1, u.2.1))
      ∧ streamToolArgs (buildClaudeResponseStream content toolCalls)
        = (nonStreamToolUses (buildClaudeResponseNonStream content toolCalls)).map
            (fun u => u.2.2))
    ∧ (toolCalls = [] ∨ content = "" →
        streamTextConcat (buildClaudeResponseStream content toolCalls)
          = blocksText (buildClaudeResponseNonStream content toolCalls).content) := by
  rw [buildClaudeResponseStream_shape]
  refine ⟨⟨?_, ?_⟩, ?_⟩
  · rw [emittedStreamOrder, streamToolBlocks_append, streamToolBlocks_append,
      streamToolBlocks_append, streamToolBlocks_toolTriples, nonStreamToolUses_spec]
    by_cases hc : content = "" <;>
      simp [streamToolBlocks, hc, Function.comp]
  · rw [emittedStreamOrder, streamToolArgs_append, streamToolArgs_append,
      streamToolArgs_append, streamToolArgs_toolTriples, nonStreamToolUses_spec]
    by_cases hc : content = "" <;>
      simp [streamToolArgs, hc, Function.comp]
  · intro h
    rw [emittedStreamOrder, streamTextConcat_append, streamTextConcat_append,
      streamTextConcat_append, streamTextConcat_toolTriples]
    rcases h with h | h
    · subst h
      by_cases hc : content = "" <;>
        simp [streamTextConcat, buildClaudeResponseNonStream, blocksText, hc]
    · subst h
      cases toolCalls with
      | nil => simp [streamTextConcat, buildClaudeResponseNonStream, blocksText]
      | cons tc rest =>
        simp [streamTextConcat, buildClaudeResponseNonStream]
        exact (blocksText_toolUses (tc :: rest)).symm

/-- Witness for the amended C3 theorem at a concrete input. -/
theorem buildClaudeResponse_stream_nonstream_agreement_witness :
    streamTextConcat (buildClaudeResponseStream "ok" [])
      = blocksText (buildClaudeResponseNonStream "ok" []).content :=
  (buildClaudeResponse_stream_nonstream_agreement "ok" []).2 (Or.inl rfl)

/- ===================== callApi retry policy (claude-kiro.js:965-1069) ===================== -/

/-- Outcome of one upstream POST attempt. -/
inductive UpResp where
  | success
  | httpError (status : Nat)
  | networkError
deriving DecidableEq, Repr

inductive CallError where
  | http (status : Nat)
  | network
  | refreshFailed
  | noResponse
deriving DecidableEq, Repr

/-- `callApi` (claude-kiro.js:965-1069), abstracted over the sequence of
upstream outcomes (consumed in order) and whether a forced credential refresh
succeeds.  Returns the result together with the number of refreshes performed.
The branch order matches the source: 403-with-`!isRetry` (refresh, then retry
with `isRetry = true`), then 429 backoff, then 5xx backoff, then network-error
backoff, each retry bounded by `maxRetries`; anything else propagates. -/
def callApiModel (refreshOk : Bool) (maxRetries : Nat) :
    List UpResp → Bool → Nat → Nat → Except CallError Unit × Nat
  | [], _, _, refreshes => (.error .noResponse, refreshes)
  | r :: rest, isRetry, retryCount, refreshes =>
    match r with
    | .success => (.ok (), refreshes)
    | .httpError status =>
      if status = 403 ∧ isRetry = false then
        if refreshOk then callApiModel refreshOk maxRetries rest true retryCount (refreshes + 1)
        else (.error .refreshFailed, refreshes + 1)
      else if status = 429 ∧ retryCount < maxRetries then
        callApiModel refreshOk maxRetries rest isRetry (retryCount + 1) refreshes
      else if 500 ≤ status ∧ status < 600 ∧ retryCount < maxRetries then
        callApiModel refreshOk maxRetries rest isRetry (retryCount + 1) refreshes
      else (.error (.http status), refreshes)
    | .networkError =>
      if retryCount < maxRetries then
        callApiModel refreshOk maxRetries rest isRetry (retryCount + 1) refreshes
      else (.error .network, refreshes)

/-- C8: a first-attempt 403 forces exactly one credential refresh and one
retry flagged `isRetry = true`; a 403 seen under that flag cannot re-enter the
refresh branch, so a second consecutive 403 propagates as the error, with
exactly one refresh performed in total. -/
theorem callApiModel_403_refresh_retry_once (maxRetries : Nat) :
    (∀ rest : List UpResp,
      callApiModel true maxRetries (.httpError 403 :: rest) false 0 0
        = callApiModel true maxRetries rest true 0 1)
    ∧ (∀ (rest : List UpResp) (retryCount refreshes : Nat),
      callApiModel true maxRetries (.httpError 403 :: rest) true retryCount refreshes
        = (.error (.http 403), refreshes))
    ∧ (∀ rest : List UpResp,
      callApiModel true maxRetries (.httpError 403 :: .httpError 403 :: rest) false 0 0
        = (.error (.http 403), 1)) :=
  ⟨fun _ => rfl, fun _ _ _ => rfl, fun _ => rfl⟩

/- ===================== Request shaper data model (claude-kiro.js:498-863) ===================== -/

/-- One part of a C-style multi-part message body.  `toolResult` bodies are
modelled by their extracted text (the source routes them through
`getContentText`). -/
inductive MsgPart where
  | text (s : String)
  | toolResult (toolUseId : String) (content : String)
  | toolUse (id name : String) (input : Json)
  | image (mediaType data : String)

inductive MsgContent where
  | str (s : String)
  | parts (l : List MsgPart)

structure Message where
  role : String
  content : MsgContent

/-- `getContentText` (claude-kiro.js:475-493) applied to a message: a string
body is returned as is; an array body joins the text parts. -/
def partsText : List MsgPart → List Char
  | [] => []
  | .text s :: rest => s.data ++ partsText rest
  | _ :: rest => partsText rest

def getContentText (m : Message) : String :=
  match m.content with
  | .str s => s
  | .parts l => ⟨partsText l⟩

/-- An incoming tool definition (`tools[]` entry); `description` is already
defaulted to `""` as every use site does via `|| ''`. -/
structure InTool where
  name : String
  description : String
  input_schema : Option Json

/-- A shaped `toolSpecification` entry. -/
structure ToolSpec where
  name : String
  description : String
  schemaJson : Json

/-- A shaped `toolResults` entry (`status` is the constant `"success"`). -/
structure ToolResultOut where
  text : String
  toolUseId : String

structure KImage where
  format : String
  bytes : String

/-- An `assistantResponseMessage.toolUses` entry `{input, name, toolUseId}`. -/
structure ToolUseOut where
  input : Json
  name : String
  toolUseId : String

/-- `userInputMessageContext`; `tools = some none` models the explicit `null`
written by size remediation stage (c). -/
structure UserContext where
  toolResults : Option (List ToolResultOut) := none
  tools : Option (Option (List ToolSpec)) := none

/-- A `userInputMessage`; optional fields are omitted from the serialized
form when `none` (mirroring absent/`undefined` JS fields). -/
structure UserInputMessage where
  content : String
  modelId : Option String
  origin : String
  context : Option UserContext := none
  images : Option (List KImage) := none

structure AssistantResponseMessage where
  content : String
  toolUses : List ToolUseOut

inductive HistoryEntry where
  | userEntry (u : UserInputMessage)
  | assistantEntry (a : AssistantResponseMessage)

structure CurrentMessage where
  userInputMessage : Option UserInputMessage

structure ConversationState where
  chatTriggerType : String
  conversationId : String
  currentMessage : CurrentMessage
  history : List HistoryEntry

structure KiroRequest where
  conversationState : ConversationState
  profileArn : Option String

/-- Configuration knobs; `0` models an unset (falsy) value, resolved through
`orDefault` exactly as the `||` defaults in claude-kiro.js:513-517. -/
structure KiroConfig where
  KIRO_MAX_TOOLS : Nat := 0
  KIRO_DISABLE_TOOLS : Bool := false
  KIRO_MAX_HISTORY : Nat := 0
  KIRO_MAX_REQUEST_SIZE : Nat := 0
  KIRO_MAX_MESSAGE_LENGTH : Nat := 0

def orDefault (n d : Nat) : Nat := if n = 0 then d else n

/- ===================== JSON.stringify over the request model ===================== -/

def interComma : List (List Char) → List Char
  | [] => []
  | [x] => x
  | x :: y :: rest => x ++ ',' :: interComma (y :: rest)

def objOf (fields : List (Option (List Char))) : List Char :=
  '\x7b' :: interComma (fields.filterMap id) ++ ['\x7d']

def arrOf (items : List (List Char)) : List Char := '[' :: interComma items ++ [']']

def kv (k : String) (v : List Char) : List Char := quoteJson k.data ++ ':' :: v

def jstr (s : String) : List Char := quoteJson s.data

def serToolResult (tr : ToolResultOut) : List Char :=
  objOf [some (kv "content" (arrOf [objOf [some (kv "text" (jstr tr.text))]])),
         some (kv "status" (jstr "success")),
         some (kv "toolUseId" (jstr tr.toolUseId))]

def serToolSpec (t : ToolSpec) : List Char :=
  objOf [some (kv "toolSpecification" (objOf
    [some (kv "name" (jstr t.name)),
     some (kv "description" (jstr t.description)),
     some (kv "inputSchema" (objOf [some (kv "json" (jsonStringify t.schemaJson))]))]))]

def serImage (im : KImage) : List Char :=
  objOf [some (kv "format" (jstr im.format)),
         some (kv "source" (objOf [some (kv "bytes" (jstr im.bytes))]))]

def serToolsVal : Option (List ToolSpec) → List Char
  | none => "null".data
  | some l => arrOf (l.map serToolSpec)

def serContext (c : UserContext) : List Char :=
  objOf [c.toolResults.map (fun l => kv "toolResults" (arrOf (l.map serToolResult))),
         c.tools.map (fun t => kv "tools" (serToolsVal t))]

def serUserInput (u : UserInputMessage) : List Char :=
  objOf [some (kv "content" (jstr u.content)),
         u.modelId.map (fun m => kv "modelId" (jstr m)),
         some (kv "origin" (jstr u.origin)),
         u.context.map (fun c => kv "userInputMessageContext" (serContext c)),
         u.images.map (fun l => kv "images" (arrOf (l.map serImage)))]

def serToolUse (tu : ToolUseOut) : List Char :=
  objOf [some (kv "input" (jsonStringify tu.input)),
         some (kv "name" (jstr tu.name)),
         some (kv "toolUseId" (jstr tu.toolUseId))]

def serAssistant (a : AssistantResponseMessage) : List Char :=
  objOf [some (kv "content" (jstr a.content)),
         some (kv "toolUses" (arrOf (a.toolUses.map serToolUse)))]

def serHistoryEntry : HistoryEntry → List Char
  | .userEntry u => objOf [some (kv "userInputMessage" (serUserInput u))]
  | .assistantEntry a => objOf [some (kv "assistantResponseMessage" (serAssistant a))]

def serRequest (r : KiroRequest) : List Char :=
  objOf [some (kv "conversationState" (objOf
          [some (kv "chatTriggerType" (jstr r.conversationState.chatTriggerType)),
           some (kv "conversationId" (jstr r.conversationState.conversationId)),
           some (kv "currentMessage" (objOf
             [r.conversationState.currentMessage.userInputMessage.map
                (fun u => kv "userInputMessage" (serUserInput u))])),
           some (kv "history" (arrOf (r.conversationState.history.map serHistoryEntry)))])),
        r.profileArn.map (fun p => kv "profileArn" (jstr p))]

/-- `JSON.stringify(request).length`. -/
def requestSize (r : KiroRequest) : Nat := (serRequest r).length

/- ===================== buildCodewhispererRequest (claude-kiro.js:498-863) ===================== -/

/-- `truncateContent`'s per-string step: sanitize, then cap at `maxLen` with
the `"\n...[内容已截断]"` marker. -/
def truncTextStr (maxLen : Nat) (s : String) : String :=
  let cleaned := cleanSystemTags s
  if cleaned.length > maxLen then ⟨cleaned.data.take maxLen⟩ ++ "\n...[内容已截断]" else cleaned

def truncateContent (maxLen : Nat) : MsgContent → MsgContent
  | .str s => .str (truncTextStr maxLen s)
  | .parts l => .parts (l.map (fun p =>
      match p with
      | .text t => MsgPart.text (truncTextStr maxLen t)
      | other => other))

/-- Tool-result text cap with the `"\n...[工具结果已截断]"` marker. -/
def truncToolResult (maxLen : Nat) (s : String) : String :=
  if s.length > maxLen then ⟨s.data.take maxLen⟩ ++ "\n...[工具结果已截断]" else s

/-- JS `array.slice(-k)` for `k ≥ 1`. -/
def sliceLast (k : Nat) (l : List α) : List α := l.drop (l.length - k)

def lookupModel (mapping : List (String × String)) (k : String) : Option String :=
  (mapping.find? (fun e => e.1 == k)).map (·.2)

/-- The core-tool whitelist (claude-kiro.js:568). -/
def coreToolNames : List String :=
  ["Read", "Write", "Edit", "Glob", "Grep", "Bash", "WebFetch", "WebSearch", "AskUserQuestion"]

/-- Tool filtering and shaping (claude-kiro.js:570-606): `none` models the
empty `toolsContext = {}`. -/
def mkToolsContext (disableTools : Bool) (maxTools : Nat) (tools : List InTool) :
    Option (List ToolSpec) :=
  if !disableTools && !tools.isEmpty then
    let filtered := (tools.filter (fun t =>
      coreToolNames.contains t.name || t.description.length ≤ 1000)).take maxTools
    if filtered.isEmpty then none
    else some (filtered.map (fun t =>
      { name := t.name, description := ⟨t.description.data.take 300⟩,
        schemaJson := t.input_schema.getD (Json.obj []) }))
  else none

/-- `part.source.media_type.split('/')[1]`. -/
def mediaFormat (mt : String) : String :=
  ⟨((mt.data.dropWhile (fun c => c != '/')).drop 1).takeWhile (fun c => c != '/')⟩

/-- History-loop accumulation over a user message's parts: sanitized text
concatenation, `toolResults`, and `images` (claude-kiro.js:647-674); `tool_use`
parts are ignored here. -/
def accumHistParts (maxLen : Nat) : List MsgPart → String × List ToolResultOut × List KImage
  | [] => ("", [], [])
  | .text t :: rest =>
    let r := accumHistParts maxLen rest
    (cleanSystemTags t ++ r.1, r.2.1, r.2.2)
  | .toolResult id c :: rest =>
    let r := accumHistParts maxLen rest
    (r.1, ⟨truncToolResult maxLen (cleanSystemTags c), id⟩ :: r.2.1, r.2.2)
  | .toolUse _ _ _ :: rest => accumHistParts maxLen rest
  | .image mt d :: rest =>
    let r := accumHistParts maxLen rest
    (r.1, r.2.1, ⟨mediaFormat mt, d⟩ :: r.2.2)

def userHistoryEntry (maxLen : Nat) (modelId : Option String) (m : Message) : UserInputMessage :=
  match m.content with
  | .str _ =>
    { content := cleanSystemTags (getContentText m), modelId := modelId, origin := "AI_EDITOR",
      context := some {}, images := none }
  | .parts l =>
    let acc := accumHistParts maxLen l
    { content := acc.1, modelId := modelId, origin := "AI_EDITOR",
      context := some { toolResults := if acc.2.1.isEmpty then none else some acc.2.1 },
      images := some acc.2.2 }

def collectToolUses : List MsgPart → List ToolUseOut
  | [] => []
  | .toolUse id name input :: rest => ⟨input, name, id⟩ :: collectToolUses rest
  | _ :: rest => collectToolUses rest

def assistantHistoryEntry (m : Message) : AssistantResponseMessage :=
  match m.content with
  | .str _ => { content := getContentText m, toolUses := [] }
  | .parts l => { content := ⟨partsText l⟩, toolUses := collectToolUses l }

/-- One iteration of the history loop (claude-kiro.js:638-701): other roles
are skipped. -/
def histEntry (maxLen : Nat) (modelId : Option String) (m : Message) : Option HistoryEntry :=
  if m.role = "user" then some (.userEntry (userHistoryEntry maxLen modelId m))
  else if m.role = "assistant" then some (.assistantEntry (assistantHistoryEntry m))
  else none

/-- Current-message accumulation (claude-kiro.js:704-743): sanitized text,
tool results (sanitized and capped), tool uses and images, in part order. -/
def accumCurrent (maxLen : Nat) :
    List MsgPart → String × List ToolResultOut × List ToolUseOut × List KImage
  | [] => ("", [], [], [])
  | .text t :: rest =>
    let r := accumCurrent maxLen rest
    (cleanSystemTags t ++ r.1, r.2)
  | .toolResult id c :: rest =>
    let r := accumCurrent maxLen rest
    (r.1, ⟨truncToolResult maxLen (cleanSystemTags c), id⟩ :: r.2.1, r.2.2)
  | .toolUse id name input :: rest =>
    let r := accumCurrent maxLen rest
    (r.1, r.2.1, ⟨input, name, id⟩ :: r.2.2.1, r.2.2.2)
  | .image mt d :: rest =>
    let r := accumCurrent maxLen rest
    (r.1, r.2.1, r.2.2.1, ⟨mediaFormat mt, d⟩ :: r.2.2.2)

def dummyMessage : Message := ⟨"", .str ""⟩

/-- `MODEL_MAPPING[model] || MODEL_MAPPING[this.modelName]` (default model
`claude-opus-4-5`). -/
def coreModelId (mapping : List (String × String)) (model : String) : Option String :=
  (lookupModel mapping model).orElse (fun _ => lookupModel mapping "claude-opus-4-5")

def truncMsg (maxLen : Nat) (m : Message) : Message :=
  { m with content := truncateContent maxLen m.content }

/-- History cap then per-message truncation (claude-kiro.js:553-565). -/
def coreProcessed (cfg : KiroConfig) (messages : List Message) : List Message :=
  let maxHistory := orDefault cfg.KIRO_MAX_HISTORY 15
  let maxMessageLength := orDefault cfg.KIRO_MAX_MESSAGE_LENGTH 8000
  let processed0 := if messages.length > maxHistory then sliceLast maxHistory messages else messages
  processed0.map (truncMsg maxMessageLength)

/-- System-prompt placement (claude-kiro.js:611-635): the produced entries and
the loop start index. -/
def coreSys (systemPrompt : String) (modelId : Option String) (processed : List Message) :
    List HistoryEntry × Nat :=
  if systemPrompt ≠ "" then
    if (processed.headD dummyMessage).role = "user" then
      ([.userEntry { content := systemPrompt ++ "\n\n" ++ getContentText (processed.headD dummyMessage),
                     modelId := modelId, origin := "AI_EDITOR" }], 1)
    else
      ([.userEntry { content := systemPrompt, modelId := modelId, origin := "AI_EDITOR" }], 0)
  else ([], 0)

/-- The history-assembly loop over all but the last message
(claude-kiro.js:638-701). -/
def coreBody (maxLen : Nat) (modelId : Option String) (startIdx : Nat)
    (processed : List Message) : List HistoryEntry :=
  (processed.dropLast.drop startIdx).filterMap (histEntry maxLen modelId)

/-- Current-message accumulation over the last processed message. -/
def coreAcc (maxLen : Nat) (current : Message) :
    String × List ToolResultOut × List ToolUseOut × List KImage :=
  match current.content with
  | .str _ => (getContentText current, [], [], [])
  | .parts l => accumCurrent maxLen l

/-- The `'Continue'` substitution (claude-kiro.js:745-747). -/
def coreCurrentContent (acc : String × List ToolResultOut × List ToolUseOut × List KImage) :
    String :=
  if acc.1 = "" ∧ acc.2.1.isEmpty = true ∧ acc.2.2.1.isEmpty = true then "Continue" else acc.1

/-- The request produced by `buildCodewhispererRequest` *before* the size
check (claude-kiro.js:498-809).  The random `conversationId` is passed in;
`authSocial`/`profileArn` model `this.authMethod === 'social'` /
`this.profileArn`. -/
def buildCore (cfg : KiroConfig) (modelMapping : List (String × String)) (model : String)
    (messages : List Message) (tools : List InTool) (systemPrompt : String)
    (conversationId : String) (authSocial : Bool) (profileArn : Option String) : KiroRequest :=
  let maxTools := orDefault cfg.KIRO_MAX_TOOLS 12
  let maxMessageLength := orDefault cfg.KIRO_MAX_MESSAGE_LENGTH 8000
  let codewhispererModel := coreModelId modelMapping model
  let processed := coreProcessed cfg messages
  let toolsContext := mkToolsContext cfg.KIRO_DISABLE_TOOLS maxTools tools
  let sys := coreSys systemPrompt codewhispererModel processed
  let history0 := sys.1 ++ coreBody maxMessageLength codewhispererModel sys.2 processed
  let current := processed.getLastD dummyMessage
  let acc := coreAcc maxMessageLength current
  let currentContent := coreCurrentContent acc
  let base : ConversationState :=
    { chatTriggerType := "MANUAL", conversationId := conversationId,
      currentMessage := ⟨none⟩, history := history0 }
  let state :=
    if current.role = "user" then
      let ctxTR : Option (List ToolResultOut) := if acc.2.1.isEmpty then none else some acc.2.1
      let ctxTools : Option (Option (List ToolSpec)) := toolsContext.map (fun l => some l)
      let ctx : Option UserContext :=
        match ctxTR, ctxTools with
        | none, none => none
        | tr, tl => some { toolResults := tr, tools := tl }
      let uim : UserInputMessage :=
        { content := currentContent, modelId := codewhispererModel, origin := "AI_EDITOR",
          context := ctx,
          images := if acc.2.2.2.isEmpty then none else some acc.2.2.2 }
      { base with currentMessage := ⟨some uim⟩ }
    else if current.role = "assistant" then
      let newHistory :=
        history0 ++ [.assistantEntry { content := currentContent, toolUses := acc.2.2.1 }]
      let cont : UserInputMessage :=
        { content := "Continue", modelId := codewhispererModel, origin := "AI_EDITOR",
          context := toolsContext.map (fun l => { toolResults := none, tools := some (some l) }),
          images := none }
      { base with currentMessage := ⟨some cont⟩, history := newHistory }
    else base
  { conversationState := state, profileArn := if authSocial then profileArn else none }

/- ===================== Size remediation (claude-kiro.js:811-860) ===================== -/

def withHistory (r : KiroRequest) (h : List HistoryEntry) : KiroRequest :=
  { r with conversationState := { r.conversationState with history := h } }

/-- Remediation stage (a): `while (history.length > 5 && size > max) shift()`. -/
def shiftHistoryLoop (maxSize : Nat) : Nat → KiroRequest → KiroRequest
  | 0, r => r
  | fuel + 1, r =>
    if r.conversationState.history.length > 5 ∧ requestSize r > maxSize then
      shiftHistoryLoop maxSize fuel (withHistory r (r.conversationState.history.drop 1))
    else r

/-- Remediation stage (b) marker truncation: content over 2000 characters is
cut with `"\n...[已截断]"`. -/
def truncHistString (s : String) : String :=
  if s.length > 2000 then ⟨s.data.take 2000⟩ ++ "\n...[已截断]" else s

/-- Remediation stage (b): re-truncate history message content. -/
def retruncateHistory (r : KiroRequest) : KiroRequest :=
  withHistory r (r.conversationState.history.map (fun e =>
    match e with
    | .userEntry u => .userEntry { u with content := truncHistString u.content }
    | .assistantEntry a => .assistantEntry { a with content := truncHistString a.content }))

/-- The guard of stage (c): a truthy
`currentMessage.userInputMessage.userInputMessageContext.tools`. -/
def toolsFieldTruthy (r : KiroRequest) : Bool :=
  match r.conversationState.currentMessage.userInputMessage with
  | some u =>
    match u.context with
    | some c =>
      match c.tools with
      | some (some _) => true
      | _ => false
    | none => false
  | none => false

/-- Remediation stage (c) body: set the `tools` field to `null`. -/
def setToolsNull (r : KiroRequest) : KiroRequest :=
  match r.conversationState.currentMessage.userInputMessage with
  | some u =>
    match u.context with
    | some c =>
      { r with conversationState := { r.conversationState with
          currentMessage := ⟨some { u with context := some { c with tools := some none } }⟩ } }
    | none => r
  | none => r

/-- The size-enforcement block of `buildCodewhispererRequest`
(claude-kiro.js:811-860), transcribed: four staged remediations, each guarded
by a re-serialized size check. -/
def applySizeLimits (cfg : KiroConfig) (r : KiroRequest) : KiroRequest :=
  let maxRequestSize := orDefault cfg.KIRO_MAX_REQUEST_SIZE 100000
  if requestSize r ≤ maxRequestSize then r
  else
    let r1 := shiftHistoryLoop maxRequestSize r.conversationState.history.length r
    let r2 := if requestSize r1 > maxRequestSize then retruncateHistory r1 else r1
    let r3 := if requestSize r2 > maxRequestSize ∧ toolsFieldTruthy r2 = true
              then setToolsNull r2 else r2
    let r4 := if requestSize r3 > maxRequestSize ∧ r3.conversationState.history.length > 3
              then withHistory r3 (sliceLast 3 r3.conversationState.history) else r3
    r4

/-- `buildCodewhispererRequest`: empty input throws `'No user messages
found'`; otherwise the shaped request with size remediation applied. -/
def buildCodewhispererRequest (cfg : KiroConfig) (modelMapping : List (String × String))
    (model : String) (messages : List Message) (tools : List InTool) (systemPrompt : String)
    (conversationId : String) (authSocial : Bool) (profileArn : Option String) :
    Except String KiroRequest :=
  if messages.isEmpty then .error "No user messages found"
  else .ok (applySizeLimits cfg (buildCore cfg modelMapping model messages tools systemPrompt
    conversationId authSocial profileArn))

/- ===================== C5: history cap before remediation ===================== -/

def c5Msg (r : String) : Message := ⟨r, .str "m"⟩

/-- Fifteen messages (exactly `KIRO_MAX_HISTORY`), the first and last with the
assistant role. -/
def c5Msgs : List Message :=
  [c5Msg "assistant", c5Msg "user", c5Msg "assistant", c5Msg "user", c5Msg "assistant",
   c5Msg "user", c5Msg "assistant", c5Msg "user", c5Msg "assistant", c5Msg "user",
   c5Msg "assistant", c5Msg "user", c5Msg "assistant", c5Msg "user", c5Msg "assistant"]

/-- C5, claim as stated is false: with a system prompt, a non-user first
message and an assistant last message, the pre-remediation history holds the
synthetic system entry plus 14 loop entries plus the pushed assistant entry =
16 > `KIRO_MAX_HISTORY` (15). -/
theorem buildCore_history_cap_counterexample :
    ¬ ((buildCore {} [] "m" c5Msgs [] "s" "cid" false
          none).conversationState.history.length
        ≤ orDefault ({} : KiroConfig).KIRO_MAX_HISTORY 15) := by
  decide

theorem orDefault_ge_one (n d : Nat) (hd : 1 ≤ d) : 1 ≤ orDefault n d := by
  unfold orDefault
  split <;> omega

theorem length_coreProcessed_le (cfg : KiroConfig) (messages : List Message) :
    (coreProcessed cfg messages).length ≤ orDefault cfg.KIRO_MAX_HISTORY 15 := by
  unfold coreProcessed
  simp only [List.length_map]
  split
  · simp only [sliceLast, List.length_drop]
    omega
  · omega

theorem length_coreSys_le (sp : String) (mid : Option String) (processed : List Message) :
    (coreSys sp mid processed).1.length ≤ 1 := by
  unfold coreSys
  split_ifs <;> simp

theorem length_coreBody_le (maxLen : Nat) (mid : Option String) (k : Nat)
    (processed : List Message) :
    (coreBody maxLen mid k processed).length ≤ processed.length - 1 := by
  unfold coreBody
  have h1 := List.length_filterMap_le (histEntry maxLen mid) (processed.dropLast.drop k)
  have h2 : (processed.dropLast.drop k).length = processed.dropLast.length - k :=
    List.length_drop k processed.dropLast
  have h3 : processed.dropLast.length = processed.length - 1 := List.length_dropLast processed
  omega

/-- C5 amended: the pre-remediation history never exceeds
`KIRO_MAX_HISTORY + 1` entries (the `+1` is reachable: counting both the
synthetic system-prompt entry and the entry pushed for an assistant-role last
message can add two entries on top of the `maxHistory - 1` loop entries). -/
theorem buildCore_history_bound (cfg : KiroConfig) (modelMapping : List (String × String))
    (model : String) (messages : List Message) (tools : List InTool) (systemPrompt : String)
    (conversationId : String) (authSocial : Bool) (profileArn : Option String) :
    (buildCore cfg modelMapping model messages tools systemPrompt conversationId
        authSocial profileArn).conversationState.history.length
      ≤ orDefault cfg.KIRO_MAX_HISTORY 15 + 1 := by
  have hm : 1 ≤ orDefault cfg.KIRO_MAX_HISTORY 15 := orDefault_ge_one _ _ (by omega)
  have hp := length_coreProcessed_le cfg messages
  have hs := length_coreSys_le systemPrompt (coreModelId modelMapping model)
    (coreProcessed cfg messages)
  have hb := length_coreBody_le (orDefault cfg.KIRO_MAX_MESSAGE_LENGTH 8000)
    (coreModelId modelMapping model)
    (coreSys systemPrompt (coreModelId modelMapping model) (coreProcessed cfg messages)).2
    (coreProcessed cfg messages)
  simp only [buildCore]
  split_ifs <;> simp only [List.length_append, List.length_cons, List.length_nil] <;> omega

/- ===================== C1: currentMessage invariant ===================== -/

def isToolUsePartB : MsgPart → Bool
  | .toolUse _ _ _ => true
  | _ => false

def hasToolUsePart (m : Message) : Bool :=
  match m.content with
  | .str _ => false
  | .parts l => l.any isToolUsePartB

/-- The claimed invariant on a shaped request: `currentMessage.userInputMessage`
exists and has non-empty `content` or non-empty `toolResults`. -/
def currentMessageOkB (r : KiroRequest) : Bool :=
  match r.conversationState.currentMessage.userInputMessage with
  | none => false
  | some u =>
    (u.content != "") ||
      (match u.context with
       | some c =>
         match c.toolResults with
         | some trs => !trs.isEmpty
         | none => false
       | none => false)

/-- A single user message consisting only of a `tool_use` part. -/
def c1Msgs : List Message := [⟨"user", .parts [.toolUse "t1" "f" (Json.obj [])]⟩]

/-- C1, claim as stated is false: a user-role last message whose parts are all
`tool_use` yields empty content, no tool results and a non-empty `toolUses`
accumulator, so the `'Continue'` substitution is skipped and the shaped
`userInputMessage` has empty content and no `toolResults`. -/
theorem buildCore_currentMessage_counterexample :
    currentMessageOkB (buildCore {} [] "m" c1Msgs [] "" "cid" false none) = false := by
  decide

theorem sliceLast_concat {α : Type} (k : Nat) (hk : 1 ≤ k) (init : List α) (last : α) :
    sliceLast k (init ++ [last]) = init.drop ((init ++ [last]).length - k) ++ [last] := by
  unfold sliceLast
  refine List.drop_append_of_le_length ?_
  simp only [List.length_append, List.length_cons, List.length_nil]
  omega

theorem coreProcessed_concat (cfg : KiroConfig) (init : List Message) (last : Message) :
    ∃ pre, coreProcessed cfg (init ++ [last])
      = pre ++ [truncMsg (orDefault cfg.KIRO_MAX_MESSAGE_LENGTH 8000) last] := by
  simp only [coreProcessed]
  by_cases h : (init ++ [last]).length > orDefault cfg.KIRO_MAX_HISTORY 15
  · rw [if_pos h, sliceLast_concat _ (orDefault_ge_one _ _ (by omega)) init last,
      List.map_append]
    exact ⟨_, rfl⟩
  · rw [if_neg h, List.map_append]
    exact ⟨_, rfl⟩

theorem accumCurrent_no_toolUse (maxLen : Nat) (l : List MsgPart)
    (h : l.any isToolUsePartB = false) : (accumCurrent maxLen l).2.2.1 = [] := by
  induction l with
  | nil => rfl
  | cons p rest ih =>
    simp only [List.any_cons, Bool.or_eq_false_iff] at h
    cases p with
    | text t => simpa [accumCurrent] using ih h.2
    | toolResult id c => simpa [accumCurrent] using ih h.2
    | toolUse a b c => simp [isToolUsePartB] at h
    | image mt d => simpa [accumCurrent] using ih h.2

theorem any_toolUse_truncParts (n : Nat) (l : List MsgPart) :
    (l.map (fun p =>
        match p with
        | MsgPart.text t => MsgPart.text (truncTextStr n t)
        | other => other)).any isToolUsePartB
      = l.any isToolUsePartB := by
  induction l with
  | nil => rfl
  | cons p rest ih =>
    cases p <;> simp only [List.map_cons, List.any_cons, isToolUsePartB, ih]

theorem hasToolUsePart_truncMsg (n : Nat) (m : Message) :
    hasToolUsePart (truncMsg n m) = hasToolUsePart m := by
  cases hc : m.content with
  | str s => simp [hasToolUsePart, truncMsg, truncateContent, hc]
  | parts l =>
    simp only [hasToolUsePart, truncMsg, truncateContent, hc]
    exact any_toolUse_truncParts n l

/-- C1 amended: for every non-empty messages list whose last message has the
user or assistant role — and, when user, contains no `tool_use` part — the
shaped request's `currentMessage.userInputMessage` exists with non-empty
`content` or non-empty `toolResults`; when the last message has the assistant
role it is pushed into history and a synthetic `'Continue'` user message
becomes the current message. -/
theorem buildCore_currentMessage_invariant (cfg : KiroConfig)
    (modelMapping : List (String × String)) (model : String)
    (init : List Message) (last : Message) (tools : List InTool) (systemPrompt : String)
    (conversationId : String) (authSocial : Bool) (profileArn : Option String)
    (hrole : last.role = "user" ∨ last.role = "assistant")
    (huser : last.role = "user" → hasToolUsePart last = false) :
    currentMessageOkB (buildCore cfg modelMapping model (init ++ [last]) tools systemPrompt
        conversationId authSocial profileArn) = true
    ∧ (last.role = "assistant" →
        (∃ u, (buildCore cfg modelMapping model (init ++ [last]) tools systemPrompt
              conversationId authSocial
              profileArn).conversationState.currentMessage.userInputMessage
            = some u ∧ u.content = "Continue")
        ∧ ∃ a, (buildCore cfg modelMapping model (init ++ [last]) tools systemPrompt
              conversationId authSocial profileArn).conversationState.history.getLast?
            = some (.assistantEntry a)) := by
  obtain ⟨pre, hpre⟩ := coreProcessed_concat cfg init last
  have hcur : (coreProcessed cfg (init ++ [last])).getLastD dummyMessage
      = truncMsg (orDefault cfg.KIRO_MAX_MESSAGE_LENGTH 8000) last := by
    rw [hpre]
    exact List.getLastD_concat _ _ _
  simp only [buildCore, hcur]
  rcases hrole with hu | ha
  · have hru : (truncMsg (orDefault cfg.KIRO_MAX_MESSAGE_LENGTH 8000) last).role = "user" := hu
    rw [if_pos hru]
    refine ⟨?_, ?_⟩
    · set acc := coreAcc (orDefault cfg.KIRO_MAX_MESSAGE_LENGTH 8000)
        (truncMsg (orDefault cfg.KIRO_MAX_MESSAGE_LENGTH 8000) last) with hacc
      have htus : acc.2.2.1 = [] := by
        rw [hacc]
        have hnone : hasToolUsePart (truncMsg (orDefault cfg.KIRO_MAX_MESSAGE_LENGTH 8000) last)
            = false := by rw [hasToolUsePart_truncMsg]; exact huser hu
        cases hc : (truncMsg (orDefault cfg.KIRO_MAX_MESSAGE_LENGTH 8000) last).content with
        | str s => simp [coreAcc, hc]
        | parts l =>
          simp only [coreAcc, hc]
          refine accumCurrent_no_toolUse _ _ ?_
          simpa [hasToolUsePart, hc] using hnone
      by_cases hC : acc.1 = "" ∧ acc.2.1.isEmpty = true ∧ acc.2.2.1.isEmpty = true
      · simp [currentMessageOkB, coreCurrentContent, hC]
      · by_cases hc1 : acc.1 = ""
        · have htrs : acc.2.1.isEmpty = false := by
            rcases Bool.eq_false_or_eq_true acc.2.1.isEmpty with h | h
            · exact absurd ⟨hc1, h, by simp [htus]⟩ hC
            · exact h
          rw [if_neg (by simp [htrs] : ¬ (acc.2.1.isEmpty = true))]
          simp [currentMessageOkB, coreCurrentContent, hC, hc1, htrs]
        · simp [currentMessageOkB, coreCurrentContent, hC, hc1]
    · intro hcontra
      rw [hu] at hcontra
      exact absurd hcontra (by decide)
  · have hra : (truncMsg (orDefault cfg.KIRO_MAX_MESSAGE_LENGTH 8000) last).role = "assistant" :=
      ha
    rw [if_neg (by rw [hra]; decide), if_pos hra]
    refine ⟨by simp [currentMessageOkB], fun _ => ⟨⟨_, rfl, rfl⟩, ?_⟩⟩
    exact ⟨_, List.getLast?_concat _⟩

/-- Witness for the amended C1 theorem at a concrete input (assistant-role
last message). -/
theorem buildCore_currentMessage_invariant_witness :
    currentMessageOkB (buildCore {} [] "m" ([⟨"user", .str "hi"⟩] ++ [⟨"assistant", .str "partial"⟩])
        [] "" "cid" false none) = true :=
  (buildCore_currentMessage_invariant {} [] "m" [⟨"user", .str "hi"⟩] ⟨"assistant", .str "partial"⟩
    [] "" "cid" false none (Or.inr rfl) (fun h => by exact absurd h (by decide))).1

/- ===================== C6: staged size remediation ===================== -/

/-- Spec stage (a): shift oldest history entries off while `|history| > 5`
(and the request is still over budget). -/
def specShiftOldest (maxSize : Nat) (r : KiroRequest) : KiroRequest :=
  if h : r.conversationState.history.length > 5 ∧ requestSize r > maxSize then
    specShiftOldest maxSize (withHistory r (r.conversationState.history.drop 1))
  else r
termination_by r.conversationState.history.length
decreasing_by
  simp only [withHistory, List.length_drop]
  omega

/-- Spec stage (c): set `currentMessage.userInputMessage.userInputMessageContext.tools`
to null (a no-op when no truthy tools field is attached). -/
def removeTools (r : KiroRequest) : KiroRequest :=
  if toolsFieldTruthy r = true then setToolsNull r else r

/-- Spec stage (d): keep only the last 3 history entries. -/
def emergencyKeepLast3 (r : KiroRequest) : KiroRequest :=
  withHistory r (sliceLast 3 r.conversationState.history)

/-- Apply the staged remediations in order, re-checking the serialized size
before each stage and stopping as soon as the request is under budget. -/
def applyStagesUntilUnder (maxSize : Nat) :
    List (KiroRequest → KiroRequest) → KiroRequest → KiroRequest
  | [], r => r
  | f :: rest, r =>
    if requestSize r ≤ maxSize then r else applyStagesUntilUnder maxSize rest (f r)

/-- The size-enforcement pipeline as the spec words it: serialize; if over
`KIRO_MAX_REQUEST_SIZE`, apply (a) shift-oldest-while-over-5, (b) re-truncate
history content to 2000 chars, (c) null the tools, (d) keep the last 3
entries — in that order, stopping as soon as the size is under budget. -/
def specSizeEnforcement (cfg : KiroConfig) (r : KiroRequest) : KiroRequest :=
  let maxSize := orDefault cfg.KIRO_MAX_REQUEST_SIZE 100000
  if requestSize r ≤ maxSize then r
  else applyStagesUntilUnder maxSize
    [specShiftOldest maxSize, retruncateHistory, removeTools, emergencyKeepLast3] r

theorem shiftHistoryLoop_eq_spec (maxSize fuel : Nat) (r : KiroRequest)
    (h : r.conversationState.history.length ≤ fuel) :
    shiftHistoryLoop maxSize fuel r = specShiftOldest maxSize r := by
  induction fuel generalizing r with
  | zero =>
    have h0 : r.conversationState.history.length = 0 := Nat.le_zero.mp h
    have hstep : shiftHistoryLoop maxSize 0 r = r := rfl
    rw [hstep, specShiftOldest]
    rw [dif_neg (fun hc => absurd hc.1 (by omega))]
  | succ n ih =>
    rw [shiftHistoryLoop, specShiftOldest]
    by_cases hc : r.conversationState.history.length > 5 ∧ requestSize r > maxSize
    · rw [if_pos hc, dif_pos hc]
      apply ih
      simp only [withHistory, List.length_drop]
      omega
    · rw [if_neg hc, dif_neg hc]

theorem sliceLast_of_le {α : Type} (l : List α) (h : l.length ≤ 3) : sliceLast 3 l = l := by
  unfold sliceLast
  rw [Nat.sub_eq_zero_of_le h, List.drop_zero]

theorem withHistory_self (r : KiroRequest) :
    withHistory r r.conversationState.history = r := rfl

theorem applySizeLimits_eq_spec (cfg : KiroConfig) (r : KiroRequest) :
    applySizeLimits cfg r = specSizeEnforcement cfg r := by
  simp only [applySizeLimits, specSizeEnforcement, applyStagesUntilUnder]
  set M := orDefault cfg.KIRO_MAX_REQUEST_SIZE 100000 with hM
  by_cases h0 : requestSize r ≤ M
  · rw [if_pos h0, if_pos h0]
  · rw [if_neg h0, if_neg h0, if_neg h0]
    rw [shiftHistoryLoop_eq_spec M _ r (Nat.le_refl _)]
    set S := specShiftOldest M r with hS
    by_cases h1 : requestSize S ≤ M
    · have e2 : (if requestSize S > M then retruncateHistory S else S) = S :=
        if_neg (by omega)
      rw [e2]
      have e3 : (if requestSize S > M ∧ toolsFieldTruthy S = true
          then setToolsNull S else S) = S :=
        if_neg (fun hc => absurd hc.1 (by omega))
      rw [e3]
      have e4 : (if requestSize S > M ∧ S.conversationState.history.length > 3
          then withHistory S (sliceLast 3 S.conversationState.history) else S) = S :=
        if_neg (fun hc => absurd hc.1 (by omega))
      rw [e4, if_pos h1]
    · rw [if_neg h1]
      have e2 : (if requestSize S > M then retruncateHistory S else S) = retruncateHistory S :=
        if_pos (by omega)
      rw [e2]
      set T := retruncateHistory S with hT
      by_cases h2 : requestSize T ≤ M
      · have e3 : (if requestSize T > M ∧ toolsFieldTruthy T = true
            then setToolsNull T else T) = T :=
          if_neg (fun hc => absurd hc.1 (by omega))
        rw [e3]
        have e4 : (if requestSize T > M ∧ T.conversationState.history.length > 3
            then withHistory T (sliceLast 3 T.conversationState.history) else T) = T :=
          if_neg (fun hc => absurd hc.1 (by omega))
        rw [e4, if_pos h2]
      · rw [if_neg h2]
        have e3 : (if requestSize T > M ∧ toolsFieldTruthy T = true
            then setToolsNull T else T) = removeTools T := by
          unfold removeTools
          by_cases ht : toolsFieldTruthy T = true
          · rw [if_pos ⟨by omega, ht⟩, if_pos ht]
          · rw [if_neg (fun hc => absurd hc.2 ht), if_neg ht]
        rw [e3]
        set U := removeTools T with hU
        by_cases h3 : requestSize U ≤ M
        · have e4 : (if requestSize U > M ∧ U.conversationState.history.length > 3
              then withHistory U (sliceLast 3 U.conversationState.history) else U) = U :=
            if_neg (fun hc => absurd hc.1 (by omega))
          rw [e4, if_pos h3]
        · rw [if_neg h3]
          unfold emergencyKeepLast3
          by_cases hl : U.conversationState.history.length > 3
          · rw [if_pos ⟨by omega, hl⟩]
          · rw [if_neg (fun hc => absurd hc.2 hl), sliceLast_of_le _ (by omega),
              withHistory_self]

/-- C6: `buildCodewhispererRequest` applies the staged size remediation in the
spec's fixed order — (a) shift oldest history entries while `|history| > 5`,
(b) re-truncate history content to 2000 characters with the `"\n...[已截断]"`
marker, (c) null the tools field, (d) keep only the last 3 entries — each
stage guarded by a re-serialized size check, stopping as soon as the request
is under `KIRO_MAX_REQUEST_SIZE`. -/
theorem buildCodewhispererRequest_size_stages (cfg : KiroConfig)
    (modelMapping : List (String × String)) (model : String) (messages : List Message)
    (tools : List InTool) (systemPrompt : String) (conversationId : String)
    (authSocial : Bool) (profileArn : Option String) (h : messages ≠ []) :
    buildCodewhispererRequest cfg modelMapping model messages tools systemPrompt conversationId
        authSocial profileArn
      = .ok (specSizeEnforcement cfg (buildCore cfg modelMapping model messages tools
          systemPrompt conversationId authSocial profileArn)) := by
  unfold buildCodewhispererRequest
  rw [if_neg (by cases messages with
        | nil => exact absurd rfl h
        | cons a l => simp), applySizeLimits_eq_spec]

/-- Witness for the C6 theorem at a concrete input. -/
theorem buildCodewhispererRequest_size_stages_witness :
    buildCodewhispererRequest {} [] "m" [⟨"user", MsgContent.str "hi"⟩] [] "" "cid" false none
      = .ok (specSizeEnforcement {} (buildCore {} [] "m" [⟨"user", MsgContent.str "hi"⟩] []
          "" "cid" false none)) :=
  buildCodewhispererRequest_size_stages {} [] "m" [⟨"user", MsgContent.str "hi"⟩] [] "" "cid"
    false none (by simp)

/- ===================== C10: dedup key collision ===================== -/

def c10CallA : ToolCall := ⟨"id1", ⟨"X-", "\x7b\x7d"⟩⟩
def c10CallB : ToolCall := ⟨"id2", ⟨"X", "-\x7b\x7d"⟩⟩

/-- C10: deduplication keys on the concatenation `name + "-" + arguments`, not
on the pair: the distinct calls `(name "X-", args "{}")` and
`(name "X", args "-{}")` share the key `"X--{}"`, so the second is dropped. -/
theorem deduplicateToolCalls_collides_on_concat_key :
    (c10CallA.function.name, c10CallA.function.arguments)
      ≠ (c10CallB.function.name, c10CallB.function.arguments)
    ∧ deduplicateToolCalls [c10CallA, c10CallB] = [c10CallA] := by
  constructor
  · decide
  · rfl
